import Mathlib

/-!
Verification development for the sugar-backend Payment Completion and
Reminder Notification Engine (src/index.js).  The JavaScript source is
shallowly embedded: database tables become lists of records, each HTTP
handler or scheduled sweep becomes a pure state-transforming function on a
`DB` value, and the outgoing mail transport is modelled by returning the
list of delivered emails (a send that fails delivers nothing; send
outcomes are supplied as explicit oracle parameters where the source
catches transport errors).

Conventions used throughout:
* money is modelled with `Rat` (JS floating-point arithmetic is exact on
  the currency magnitudes involved, and the source's `amountCents / 100`
  is exact rational division);
* calendar dates are date-only day numbers (`Int`), mirroring the
  source's normalisation of `event_date` to a `YYYY-MM-DD` string before
  arithmetic (`Date.UTC` on parsed components is day arithmetic);
* timestamps used by the deposit-reminder grace period are in hours
  (`INTERVAL '24 hours'`);
* locale-specific presentation formatting (`toLocaleDateString`,
  `toFixed`, `toLocaleString`) is abstracted by injective stand-ins,
  since no verified property depends on the rendered digits.
-/

namespace Sugar

/-! ### Character-list string machinery

JavaScript `String.prototype.replace(/lit/g, repl)` for a literal
pattern: scan left to right, replace non-overlapping matches, never
rescan the replacement text.  Implemented on `List Char` with explicit
fuel so that every function reduces inside the kernel. -/

/-- Boolean prefix test on character lists. -/
def isPrefixB : List Char → List Char → Bool
  | [], _ => true
  | _ :: _, [] => false
  | a :: p, b :: s => a == b && isPrefixB p s

/-- Boolean substring (contiguous factor) test on character lists. -/
def containsB (p : List Char) : List Char → Bool
  | [] => isPrefixB p []
  | c :: rest => isPrefixB p (c :: rest) || containsB p rest

/-- Fueled worker for `replaceAll`; the fuel bounds the number of scan
steps and is always instantiated with the length of the subject. -/
def replaceAllFuel (pat repl : List Char) : Nat → List Char → List Char
  | 0, s => s
  | _ + 1, [] => []
  | fuel + 1, c :: rest =>
    if !pat.isEmpty && isPrefixB pat (c :: rest) then
      repl ++ replaceAllFuel pat repl fuel ((c :: rest).drop pat.length)
    else
      c :: replaceAllFuel pat repl fuel rest

/-- Replace every (leftmost, non-overlapping) occurrence of `pat` by
`repl`, exactly as `subject.replace(/pat/g, repl)` does for a literal
pattern. -/
def replaceAllL (pat repl s : List Char) : List Char :=
  replaceAllFuel pat repl s.length s

/-- String-level wrapper for `replaceAllL`, argument order matching the
JS method-call `s.replace(pat, repl)`. -/
def jsReplaceAll (s pat repl : String) : String :=
  String.mk (replaceAllL pat.data repl.data s.data)

/-- The opening-brace character of a placeholder token. -/
def lbrace : Char := Char.ofNat 123

/-- The closing-brace character of a placeholder token. -/
def rbrace : Char := Char.ofNat 125

/-- A string contains neither brace character. -/
def braceFree (s : String) : Bool :=
  s.data.all (fun ch => !(ch == lbrace) && !(ch == rbrace))

/-! ### Small kernel-computable string helpers

These mirror the JavaScript built-ins used by the source
(`split(' ')`, `trim`, `join(' ')`, `toLowerCase`, `includes`). -/

/-- JS `split(' ')`: split on the single space character, keeping empty
segments. -/
def splitOnSpace : List Char → List (List Char)
  | [] => [[]]
  | c :: rest =>
    match splitOnSpace rest with
    | [] => [[]]
    | w :: ws => if c == ' ' then [] :: w :: ws else (c :: w) :: ws

/-- JS `join(' ')` over a list of words. -/
def joinWithSpace : List (List Char) → List Char
  | [] => []
  | [w] => w
  | w :: ws => w ++ ' ' :: joinWithSpace ws

/-- JS `trim`: strip leading and trailing whitespace. -/
def trimChars (s : List Char) : List Char :=
  ((s.dropWhile fun c => c == ' ' || c == '\n' || c == '\t' || c == '\r').reverse.dropWhile
    fun c => c == ' ' || c == '\n' || c == '\t' || c == '\r').reverse

/-- JS `toLowerCase` (ASCII range, which covers every value the source
lowercases). -/
def lowerStr (s : String) : String :=
  String.mk (s.data.map Char.toLower)

/-- Substring test at string level, JS `includes`. -/
def strIncludes (s sub : String) : Bool :=
  containsB sub.data s.data

/-- Source `getFirstName` (src/index.js:27): empty or missing name gives
"there"; a name containing " & " keeps everything but the last word;
otherwise the first space-separated word. -/
def getFirstName (fullName : Option String) : String :=
  match fullName with
  | none => "there"
  | some s =>
    if s.data.isEmpty then "there"
    else
      let name := trimChars s.data
      if containsB " & ".data name then
        String.mk (joinWithSpace (splitOnSpace name).dropLast)
      else
        String.mk ((splitOnSpace name).headD [])

/-- Stand-in for `toLocaleDateString('en-US', {weekday, month, day,
year})` on a date-only day number; the rendered text is presentation
only, so an injective placeholder rendering suffices. -/
def formatDateLong (d : Int) : String :=
  "date#" ++ toString d

/-- Stand-in for `toLocaleDateString('en-US', {month, day, year})`. -/
def formatDateShort (d : Int) : String :=
  "day#" ++ toString d

/-- Stand-in for `(x).toFixed(2)` on an exact rational amount. -/
def formatFixed2 (a : Rat) : String :=
  toString a

/-- Stand-in for `toLocaleString('en-US', {style: 'currency'})`. -/
def formatCurrency (a : Rat) : String :=
  "$" ++ toString a

/-! ### Notification templates (src/index.js:1723-1853, 2034-2065)

An administrator override is merged field-by-field over the built-in
default (`{ ...default, ...custom }`): a field present in the override
wins, a missing field falls back to the default. -/

structure EmailTemplate where
  subject : String
  body : String
  deriving Repr, DecidableEq

structure TemplateOverride where
  subject : Option String
  body : Option String
  deriving Repr, DecidableEq

/-- JS spread-merge `{ ...dflt, ...o }` for the two template fields. -/
def mergeTemplate (dflt : EmailTemplate) (o : TemplateOverride) : EmailTemplate :=
  { subject := o.subject.getD dflt.subject, body := o.body.getD dflt.body }

/-- Built-in tasting confirmation template (subject and body as in the
source; apostrophes written as `\x27`). -/
def defaultTastingConfirmationTemplate : EmailTemplate :=
  { subject := "Kenna Giuzio Cake - Tasting Paid & Confirmed - {tastingDate}"
    body := "Dear {firstName},\n\nThank you for your payment of {amount}. Your tasting is confirmed!\n\nFeel free to bring any inspiration photos, color swatches, or your event team members.\n\nIf you have any questions before your tasting, don\x27t hesitate to reach out.\n\nSee you soon,\nKenna" }

/-- Built-in booking confirmation template. -/
def defaultBookingConfirmationTemplate : EmailTemplate :=
  { subject := "Kenna Giuzio Cake - You\x27re Booked! - {eventDate}"
    body := "Hi {firstName},\n\nI\x27m delighted to share that your date is officially booked! Thank you for trusting me with your {eventType}.\n\nWHAT\x27S NEXT:\n- If anything changes with your event, please don\x27t hesitate to let me know.\n- Your remaining balance will be due two weeks before your event ({balanceDueDate}).\n\nI\x27m truly excited to create something beautiful for your celebration!\n\nWarmly,\nKenna" }

/-- Built-in deposit reminder template. -/
def defaultDepositReminderTemplate : EmailTemplate :=
  { subject := "Kenna Giuzio Cake - A Gentle Reminder About Your {eventType}"
    body := "Hi {firstName},\n\nThank you so much for signing your proposal! I noticed your deposit hasn\x27t been submitted yet, and I want to make sure your date of {eventDate} stays available for you.\n\nYou can complete your deposit here:\n[DEPOSIT LINK]\n\nWarmly,\nKenna" }

/-- Built-in one-month reminder template. -/
def defaultOneMonthReminderTemplate : EmailTemplate :=
  { subject := "Kenna Giuzio Cake - Countdown for Your Upcoming Event"
    body := "Hi {firstName},\n\nI can hardly believe your {eventType} is just one month away!\n\nThis is a friendly reminder that your remaining balance of {balanceAmount} will be due on {balanceDueDate}, which is two weeks before your event.\n\nWarmly,\nKenna" }

/-- Built-in two-week reminder template. -/
def defaultTwoWeekReminderTemplate : EmailTemplate :=
  { subject := "Kenna Giuzio Cake - Reminder for Your Upcoming Event"
    body := "Hi {firstName},\n\nYour {eventType} is just two weeks away!\n\nThis is a friendly reminder that your final balance of {balanceAmount} is now due.\n\nWarmly,\nKenna" }

/-! ### Payment-confirmation body substitution
(src/index.js:1948-1952, 2021-2027) -/

structure TastingEmailData where
  firstName : String
  amountFormatted : String
  tastingDate : Option String
  tastingTime : Option String
  deriving Repr, DecidableEq

structure BookingEmailData where
  firstName : String
  amountFormatted : String
  eventType : Option String
  eventDate : Option String
  venue : Option String
  balanceDueDate : Option String
  deriving Repr, DecidableEq

/-- Body substitution shared by `buildTastingConfirmationHTML` and
`buildTastingConfirmationPlain` (src/index.js:1948-1952 and 1970-1974):
chained global replaces of the recognised placeholders, with the
source's per-placeholder fallbacks. -/
def tastingBodySubst (d : TastingEmailData) (templateBody : String) : String :=
  jsReplaceAll
    (jsReplaceAll
      (jsReplaceAll
        (jsReplaceAll templateBody "{firstName}" d.firstName)
        "{amount}" d.amountFormatted)
      "{tastingDate}" (d.tastingDate.getD "To be confirmed"))
    "{tastingTime}" (d.tastingTime.getD "")

/-- Body substitution shared by `buildBookingConfirmationHTML` and
`buildBookingConfirmationPlain` (src/index.js:1998-2004 and 2021-2027). -/
def bookingBodySubst (d : BookingEmailData) (templateBody : String) : String :=
  jsReplaceAll
    (jsReplaceAll
      (jsReplaceAll
        (jsReplaceAll
          (jsReplaceAll
            (jsReplaceAll templateBody "{firstName}" d.firstName)
            "{amount}" d.amountFormatted)
          "{eventType}" (lowerStr (d.eventType.getD "celebration")))
        "{eventDate}" (d.eventDate.getD "your event"))
      "{venue}" (d.venue.getD ""))
    "{balanceDueDate}" (d.balanceDueDate.getD "two weeks before your event")

/-- The placeholder tokens recognised by the booking-confirmation body
substitution; any other `{...}` token is untouched by it. -/
def bookingPlaceholders : List String :=
  ["{firstName}", "{amount}", "{eventType}", "{eventDate}", "{venue}", "{balanceDueDate}"]

/-- The placeholder tokens recognised by the tasting-confirmation body
substitution. -/
def tastingPlaceholders : List String :=
  ["{firstName}", "{amount}", "{tastingDate}", "{tastingTime}"]

/-- A substituted value that cannot interfere with the given placeholder
tokens: it contains no brace and does not occur inside any token (in
particular it is nonempty). -/
def substSafe (v : String) (pats : List String) : Bool :=
  braceFree v && pats.all (fun q => !(containsB v.data q.data))

/-- Left-to-right sequence of global replacements; the chained
`.replace(...).replace(...)` calls of the source are exactly a fold of
`jsReplaceAll` over the (token, value) pairs in source order. -/
def applySubsts (subs : List (String × String)) (s : String) : String :=
  subs.foldl (fun acc pv => jsReplaceAll acc pv.1 pv.2) s

/-- Plain-text tasting confirmation (src/index.js:1964-1977), header and
footer around the substituted body. -/
def buildTastingConfirmationPlain (d : TastingEmailData) (template : EmailTemplate) : String :=
  "Tasting Paid & Confirmed\n\n" ++ d.amountFormatted ++ "\n" ++
    tastingBodySubst d template.body ++
    "\n\nKenna Giuzio Cake\n(206) 472-5401\nkenna@kennagiuziocake.com"

/-- Plain-text booking confirmation (src/index.js:2016-2029). -/
def buildBookingConfirmationPlain (d : BookingEmailData) (template : EmailTemplate) : String :=
  "You\x27re Booked!\nDeposit Payment Received\n\n" ++ d.amountFormatted ++ "\n" ++
    bookingBodySubst d template.body ++
    "\n\nKenna Giuzio Cake\n(206) 472-5401\nkenna@kennagiuziocake.com"

/-- Deposit-reminder body substitution (src/index.js:2081-2089). -/
def depositReminderBodySubst (firstName eventType eventDate depositUrl : String)
    (templateBody : String) : String :=
  jsReplaceAll
    (jsReplaceAll
      (jsReplaceAll
        (jsReplaceAll templateBody "{firstName}" firstName)
        "{eventType}" eventType)
      "{eventDate}" eventDate)
    "[DEPOSIT LINK]" depositUrl

/-! ### Data model (schema.sql and src/index.js migrations)

Tables are lists of records in insertion order (`ORDER BY created_at`
follows list order).  `invoices.invoice_number` is UNIQUE in the schema;
`reminders_sent` has no uniqueness constraint. -/

/-- Relevant keys of the JSONB `invoices.data` column. -/
structure InvoiceData where
  paymentMethod : Option String
  clientName : Option String
  clientEmail : Option String
  stripeId : Option String
  proposalTotal : Option Rat
  tastingCredit : Option Rat
  depositPaid : Option Rat
  amount : Option Rat
  deriving Repr, DecidableEq

/-- Empty JSONB object. -/
def InvoiceData.empty : InvoiceData :=
  ⟨none, none, none, none, none, none, none, none⟩

structure Invoice where
  clientId : Option Nat
  invoiceNumber : String
  type : String
  amount : Rat
  status : String
  paidAt : Option Int
  data : InvoiceData
  deriving Repr, DecidableEq

/-- Client row; `name` is NOT NULL in the schema, dates are date-only
day numbers. -/
structure Client where
  id : Nat
  name : String
  email : Option String
  status : String
  eventDate : Option Int
  eventType : Option String
  venue : Option String
  tastingDate : Option Int
  tastingTime : Option String
  deriving Repr, DecidableEq

structure PortalData where
  clientId : Nat
  tastingPaid : Bool
  depositPaid : Bool
  finalPaid : Bool
  deriving Repr, DecidableEq

structure RevenueEntry where
  clientId : Nat
  invoiceId : Option String
  amount : Rat
  type : String
  notes : String
  deriving Repr, DecidableEq

/-- Dedup-ledger row (`reminders_sent`). -/
structure ReminderRecord where
  clientId : Nat
  type : String
  deriving Repr, DecidableEq

structure CalendarEvent where
  clientId : Nat
  title : String
  eventDate : Int
  eventType : String
  notes : String
  deriving Repr, DecidableEq

/-- Proposal row; `signedAt` is a timestamp in hours (the deposit
reminder grace period is `INTERVAL '24 hours'`). -/
structure Proposal where
  clientId : Nat
  status : String
  signedAt : Int
  deriving Repr, DecidableEq

structure Communication where
  clientId : Nat
  type : String
  subject : String
  message : String
  deriving Repr, DecidableEq

/-- A delivered email (a failed transport send delivers nothing). -/
structure Email where
  toAddr : String
  subject : String
  deriving Repr, DecidableEq

/-- The relational store plus the settings the engine reads:
`gmailToken` models the presence of the `gmail_refresh_token` settings
row, `emailTemplates` the administrator overrides stored under
`email_templates`, and `fbSeq` the `Date.now()`-derived fresh suffix
used for generated `FB-` invoice numbers. -/
structure DB where
  clients : List Client
  invoices : List Invoice
  portalData : List PortalData
  revenue : List RevenueEntry
  remindersSent : List ReminderRecord
  calendarEvents : List CalendarEvent
  proposals : List Proposal
  communications : List Communication
  gmailToken : Bool
  emailTemplates : List (String × TemplateOverride)
  fbSeq : Nat
  deriving Repr, DecidableEq

/-- Template loader: administrator override merged over the built-in
default, falling back entirely to the default when absent
(src/index.js:1791-1853, 2051-2065). -/
def getTemplate (db : DB) (key : String) (dflt : EmailTemplate) : EmailTemplate :=
  match db.emailTemplates.lookup key with
  | some o => mergeTemplate dflt o
  | none => dflt

/-- `process.env.KENNA_EMAIL || 'kenna@kennagiuziocake.com'`. -/
def kennaEmail : String := "kenna@kennagiuziocake.com"

/-- Store with every table empty and the Gmail token configured; base
point for the concrete scenarios. -/
def emptyDB : DB :=
  { clients := [], invoices := [], portalData := [], revenue := [],
    remindersSent := [], calendarEvents := [], proposals := [],
    communications := [], gmailToken := true, emailTemplates := [], fbSeq := 0 }

/-! ### Payment Completion Handler (src/index.js:2742-3051)

The webhook payload after metadata extraction; `none` models a missing
or empty (JS-falsy) field. -/

structure PaymentEvent where
  invoiceId : Option String
  invoiceType : Option String
  clientId : Option Nat
  clientName : Option String
  clientEmail : Option String
  amountCents : Rat
  stripeId : String
  deriving Repr, DecidableEq

/-- Effect 1 (src/index.js:2745-2768): `UPDATE invoices SET status =
'paid', paid_at = NOW(), amount = COALESCE(NULLIF(amount, 0), $2) WHERE
invoice_number = $1`, and if no row matched, insert a new invoice
directly in `paid` with the event's amount. -/
def invoiceUpsert (now : Int) (ev : PaymentEvent) (invoices : List Invoice) : List Invoice :=
  match ev.invoiceId with
  | none => invoices
  | some n =>
    if invoices.any (fun i => i.invoiceNumber == n) then
      invoices.map (fun i =>
        if i.invoiceNumber == n then
          { i with status := "paid", paidAt := some now,
                   amount := if i.amount == 0 then ev.amountCents / 100 else i.amount }
        else i)
    else
      invoices ++ [{ clientId := ev.clientId, invoiceNumber := n,
                     type := ev.invoiceType.getD "other",
                     amount := ev.amountCents / 100, status := "paid", paidAt := some now,
                     data := { InvoiceData.empty with
                               paymentMethod := some "card", clientName := ev.clientName,
                               clientEmail := ev.clientEmail, stripeId := some ev.stripeId } }]

/-- `INSERT INTO portal_data ... ON CONFLICT (client_id) DO UPDATE`. -/
def upsertPortal (cid : Nat) (f : PortalData → PortalData) (mk : PortalData)
    (pd : List PortalData) : List PortalData :=
  if pd.any (fun p => p.clientId == cid) then
    pd.map (fun p => if p.clientId == cid then f p else p)
  else
    pd ++ [mk]

/-- Source `createEventPrepCalendarEvent` (src/index.js:2390-2439): look
up the client's name and date-only event date; insert 7 "prep" entries
for the 7 days before the event (loop `i = 7 .. 1`, date `D - i`),
then one "event" entry on the event date itself.  A missing client or
missing event date inserts nothing. -/
def createEventPrepCalendarEvent (cid : Nat) (db : DB) : DB :=
  match db.clients.find? (fun c => c.id == cid) with
  | none => db
  | some c =>
    match c.eventDate with
    | none => db
    | some d =>
      let lastName := String.mk ((splitOnSpace c.name.data).getLast?.getD [])
      let prepTitle := lastName ++ " Event Prep"
      let eventTitle := lastName ++ (if strIncludes c.name "Wedding" then " Wedding" else " Event")
      let prepEvents := ([7, 6, 5, 4, 3, 2, 1] : List Int).map (fun i =>
        { clientId := cid, title := prepTitle, eventDate := d - i, eventType := "prep",
          notes := "Day " ++ toString (8 - i) ++ " of 7 — event prep for " ++ c.name
          : CalendarEvent })
      let eventEntry : CalendarEvent :=
        { clientId := cid, title := eventTitle, eventDate := d, eventType := "event",
          notes := "Event day for " ++ c.name }
      { db with calendarEvents := db.calendarEvents ++ prepEvents ++ [eventEntry] }

/-- Effect 2 (src/index.js:2770-2799): per-`invoiceType` client and
portal-data updates, all gated on both `clientId` and `invoiceType`
being present (JS `if (clientId && invoiceType)`). -/
def clientStatusUpdate (ev : PaymentEvent) (db : DB) : DB :=
  match ev.clientId, ev.invoiceType with
  | some cid, some t =>
    if t == "tasting" then
      let pd := upsertPortal cid (fun p => { p with tastingPaid := true })
        (⟨cid, true, false, false⟩ : PortalData) db.portalData
      { db with portalData := pd }
    else if t == "deposit" then
      let db1 := { db with clients := db.clients.map (fun (c : Client) =>
        if c.id == cid then { c with status := "booked" } else c) }
      let pd := upsertPortal cid (fun p => { p with depositPaid := true })
        (⟨cid, false, true, false⟩ : PortalData) db1.portalData
      let db2 := { db1 with portalData := pd }
      createEventPrepCalendarEvent cid db2
    else if t == "final" then
      let pd := upsertPortal cid (fun p => { p with finalPaid := true })
        (⟨cid, false, false, true⟩ : PortalData) db.portalData
      { db with portalData := pd }
    else db
  | _, _ => db

/-- Effect 3 (src/index.js:2801-2812): append one revenue row, gated on
`clientId` only; no status check or transaction-id dedup precedes it. -/
def recordRevenue (ev : PaymentEvent) (db : DB) : DB :=
  match ev.clientId with
  | none => db
  | some cid =>
    { db with revenue := db.revenue ++
        [{ clientId := cid, invoiceId := ev.invoiceId, amount := ev.amountCents / 100,
           type := ev.invoiceType.getD "other",
           notes := "Stripe payment: " ++ ev.stripeId }] }

/-- Effect 4 (src/index.js:2814-2845): plain operational email to the
owner, sent whenever the Gmail token is configured. -/
def ownerNotification (ev : PaymentEvent) (db : DB) : List Email :=
  if db.gmailToken then
    [{ toAddr := kennaEmail,
       subject := "Payment Received: " ++ formatCurrency (ev.amountCents / 100) ++
         " from " ++ (ev.clientName.getD "Client") }]
  else []

/-- Client-facing confirmation content selected by `invoiceType`
(tasting / booking / paid-in-full / generic); this block is duplicated
verbatim in the source between the webhook handler
(src/index.js:2858-2959) and the offline-verify endpoint
(src/index.js:2519-2621).  Returns `(subject, plainText)`. -/
def buildClientConfirmation (db : DB) (clientId : Option Nat) (invoiceType : Option String)
    (clientName : Option String) (amountCents : Rat) : String × String :=
  let firstName := getFirstName clientName
  let amountFormatted := "$" ++ formatFixed2 (amountCents / 100)
  if invoiceType == some "tasting" then
    let cinfo := clientId.bind (fun cid => db.clients.find? (fun c => c.id == cid))
    let tastingDate := cinfo.bind (fun c => c.tastingDate.map formatDateLong)
    let tastingTime := cinfo.bind (fun c => c.tastingTime)
    let t := getTemplate db "tasting-confirmation" defaultTastingConfirmationTemplate
    let subject := jsReplaceAll
      (jsReplaceAll t.subject "{tastingDate}" (tastingDate.getD "Your Tasting"))
      "{firstName}" firstName
    (subject, buildTastingConfirmationPlain
      ⟨firstName, amountFormatted, tastingDate, tastingTime⟩ t)
  else if invoiceType == some "deposit" then
    let cinfo := clientId.bind (fun cid => db.clients.find? (fun c => c.id == cid))
    let eventType := cinfo.bind (fun c => c.eventType)
    let eventDate := cinfo.bind (fun c => c.eventDate.map formatDateLong)
    let balanceDueDate := cinfo.bind (fun c => c.eventDate.map (fun d => formatDateShort (d - 14)))
    let venue := cinfo.bind (fun c => c.venue)
    let t := getTemplate db "booking-confirmation" defaultBookingConfirmationTemplate
    let subject := jsReplaceAll
      (jsReplaceAll
        (jsReplaceAll t.subject "{eventDate}" (eventDate.getD "Your Event"))
        "{firstName}" firstName)
      "{eventType}" (eventType.getD "celebration")
    (subject, buildBookingConfirmationPlain
      ⟨firstName, amountFormatted, eventType, eventDate, venue, balanceDueDate⟩ t)
  else if invoiceType == some "final" then
    ("Paid in Full - Kenna Giuzio Cake",
      "Hi " ++ firstName ++
        ",\n\nYour final balance has been received — you are officially paid in full!\n\nWarmly,\nKenna\n\nKenna Giuzio Cake\n(206) 472-5401\nkenna@kennagiuziocake.com")
  else
    ("Payment Confirmed - Kenna Giuzio Cake",
      "Hi " ++ firstName ++ ",\n\nThank you for your payment of " ++ amountFormatted ++
        ".\n\nWarmly,\nKenna\n\nKenna Giuzio Cake\n(206) 472-5401\nkenna@kennagiuziocake.com")

/-- Effect 5 (src/index.js:2847-3050): branded confirmation email to the
client, gated on `clientEmail` and the Gmail token; the sent message is
logged to `communications` when `clientId` is present. -/
def clientConfirmationEmail (ev : PaymentEvent) (db : DB) : DB × List Email :=
  match ev.clientEmail with
  | none => (db, [])
  | some addr =>
    if db.gmailToken then
      let sp := buildClientConfirmation db ev.clientId ev.invoiceType ev.clientName ev.amountCents
      let db' := match ev.clientId with
        | some cid => { db with communications := db.communications ++
            [{ clientId := cid, type := "email", subject := sp.1, message := sp.2 }] }
        | none => db
      (db', [{ toAddr := addr, subject := sp.1 }])
    else (db, [])

/-- The shared payment completion handler `handlePaymentCompleted`
(src/index.js:2742-3051): invoice upsert, per-type client updates,
revenue append, owner notification, client confirmation — each effect
independently fault-tolerant, run in source order. -/
def handlePaymentCompleted (now : Int) (ev : PaymentEvent) (db : DB) : DB × List Email :=
  let db1 := { db with invoices := invoiceUpsert now ev db.invoices }
  let db2 := clientStatusUpdate ev db1
  let db3 := recordRevenue ev db2
  let ownerEm := ownerNotification ev db3
  let r := clientConfirmationEmail ev db3
  (r.1, ownerEm ++ r.2)

/-! ### Offline payment endpoints (src/index.js:1117-1202, 2442-2715) -/

/-- Request body shared by the two offline endpoints; `none` models a
missing or JS-falsy field (`!amount` also rejects a zero amount). -/
structure OfflineReq where
  invoiceId : Option String
  invoiceType : Option String
  clientId : Option Nat
  clientName : Option String
  clientEmail : Option String
  amount : Option Rat
  paymentMethod : Option String
  deriving Repr, DecidableEq

/-- `POST /api/payments/offline-claimed` (src/index.js:1117-1202):
validate the amount, set the referenced invoice to
`pending_verification` (creating it in that status when absent), notify
the owner, and log the claim.  Returns `none` for the 4xx validation
failure, which performs no side effect. -/
def offlineClaimed (req : OfflineReq) (db : DB) : Option (DB × List Email) :=
  match req.amount with
  | none => none
  | some a =>
    if a == 0 then none
    else
      let method := req.paymentMethod.getD "zelle"
      let db1 :=
        match req.invoiceId with
        | none => db
        | some n =>
          if db.invoices.any (fun i => i.invoiceNumber == n) then
            { db with invoices := db.invoices.map (fun i =>
                if i.invoiceNumber == n then
                  { i with status := "pending_verification",
                           data := { i.data with paymentMethod := some method } }
                else i) }
          else
            { db with invoices := db.invoices ++
                [{ clientId := req.clientId, invoiceNumber := n,
                   type := req.invoiceType.getD "deposit", amount := a,
                   status := "pending_verification", paidAt := none,
                   data := { InvoiceData.empty with
                             paymentMethod := some method, clientName := req.clientName,
                             clientEmail := req.clientEmail } }] }
      let emails :=
        if db1.gmailToken then
          [{ toAddr := kennaEmail,
             subject := "Action Required: Verify " ++ method ++ " Payment of $" ++
               formatFixed2 a ++ " from " ++ (req.clientName.getD "Client") }]
        else []
      let db2 :=
        match req.clientId with
        | some cid => { db1 with communications := db1.communications ++
            [{ clientId := cid, type := "payment",
               subject := method ++ " payment claimed: $" ++ formatFixed2 a,
               message := "Pending verification." }] }
        | none => db1
      some (db2, emails)

/-- `Math.round` on an exact rational. -/
def jsRound (x : Rat) : Int :=
  ⌊x + 1 / 2⌋

/-- `POST /api/payments/offline-verify` (src/index.js:2442-2715):
validate the amount, mark the referenced invoice `paid` (update only, no
insert on this path), apply the per-type client updates, append one
revenue row, and send the branded client confirmation. -/
def offlineVerify (now : Int) (req : OfflineReq) (db : DB) : Option (DB × List Email) :=
  match req.amount with
  | none => none
  | some a =>
    if a == 0 then none
    else
      let amountCents : Rat := ((jsRound (a * 100) : Int) : Rat)
      let db1 :=
        match req.invoiceId with
        | none => db
        | some n =>
          { db with invoices := db.invoices.map (fun i =>
              if i.invoiceNumber == n then
                { i with status := "paid", paidAt := some now }
              else i) }
      let ev : PaymentEvent :=
        { invoiceId := req.invoiceId, invoiceType := req.invoiceType,
          clientId := req.clientId, clientName := req.clientName,
          clientEmail := req.clientEmail, amountCents := amountCents, stripeId := "" }
      let db2 := clientStatusUpdate ev db1
      let db3 :=
        match req.clientId with
        | none => db2
        | some cid =>
          { db2 with revenue := db2.revenue ++
              [{ clientId := cid, invoiceId := req.invoiceId, amount := amountCents / 100,
                 type := req.invoiceType.getD "other",
                 notes := (req.paymentMethod.getD "zelle") ++ " payment verified by admin" }] }
      let r := clientConfirmationEmail ev db3
      some (r.1, r.2)

/-! ### Deposit-reminder sweep (src/index.js:2091-2204) -/

/-- Outcome of the two mail-transport calls a single
`sendDepositReminder` invocation makes (client email, then owner
notification); a `false` models the send throwing. -/
structure SendOutcome where
  clientOk : Bool
  ownerOk : Bool
  deriving Repr, DecidableEq

/-- Source `sendDepositReminder` (src/index.js:2091-2168): bail out
without a Gmail token; render the (override-merged) template; send the
client email, then the owner notification, and only after both succeed
insert the `deposit-reminder` ledger row.  Any throw is caught and the
function returns `false` with no ledger write. -/
def sendDepositReminder (oc : SendOutcome) (p : Proposal) (c : Client) (db : DB) :
    DB × List Email × Bool :=
  if !db.gmailToken then (db, [], false)
  else
    let firstName := getFirstName (some c.name)
    let eventType := c.eventType.getD "celebration"
    let eventDate := (c.eventDate.map formatDateLong).getD "your upcoming event"
    let template := getTemplate db "deposit-reminder" defaultDepositReminderTemplate
    let subject := jsReplaceAll
      (jsReplaceAll
        (jsReplaceAll template.subject "{firstName}" firstName)
        "{eventType}" eventType)
      "{eventDate}" eventDate
    if !oc.clientOk then (db, [], false)
    else
      let e1 : Email := { toAddr := c.email.getD "", subject := subject }
      if !oc.ownerOk then (db, [e1], false)
      else
        let e2 : Email :=
          { toAddr := kennaEmail,
            subject := "Auto-Reminder Sent: Deposit reminder to " ++ c.name }
        ({ db with remindersSent := db.remindersSent ++ [⟨c.id, "deposit-reminder"⟩] },
          [e1, e2], true)

/-- One row of the candidate query of `checkDepositReminders`
(src/index.js:2173-2186): a signed proposal older than the 24-hour grace
period, joined to a client with a non-null email, with no `deposit`
revenue row and no `deposit-reminder` ledger row for that client.
`now` and `signedAt` are in hours. -/
def drcStep (now : Int) (db : DB) (p : Proposal) : Option (Proposal × Client) :=
  if p.status == "signed" && decide (p.signedAt < now - 24) then
    match db.clients.find? (fun c => c.id == p.clientId) with
    | none => none
    | some c =>
      if c.email.isSome
          && !(db.revenue.any (fun r => r.clientId == p.clientId && r.type == "deposit"))
          && !(db.remindersSent.any (fun rs =>
                rs.clientId == p.clientId && rs.type == "deposit-reminder")) then
        some (p, c)
      else none
  else none

/-- The full candidate list: `drcStep` mapped over the proposals table. -/
def depositReminderCandidates (now : Int) (db : DB) : List (Proposal × Client) :=
  db.proposals.filterMap (drcStep now db)

/-- Source `checkDepositReminders` (src/index.js:2170-2199): compute the
candidate list once up front, then invoke `sendDepositReminder` for each
row, threading the store; a failure for one candidate does not abort the
rest.  `oc` supplies the transport outcome per client id. -/
def checkDepositReminders (now : Int) (oc : Nat → SendOutcome) (db : DB) : DB × List Email :=
  (depositReminderCandidates now db).foldl
    (fun acc pr =>
      let r := sendDepositReminder (oc pr.2.id) pr.1 pr.2 acc.1
      (r.1, acc.2 ++ r.2.1))
    (db, [])

/-! ### Event-approach sweep (src/index.js:4263-4493) -/

/-- Candidate query of `checkUpcomingEvents` (src/index.js:4275-4285):
booked clients with a future event date whose final balance is unpaid
(`final_paid` null or false).  `now` and event dates are day numbers;
the source's `ORDER BY event_date` is dropped because no verified
property depends on processing order. -/
def upcomingCandidates (now : Int) (db : DB) : List Client :=
  db.clients.filter (fun c =>
    c.status == "booked" && c.eventDate.isSome && decide (now < c.eventDate.getD 0) &&
      !(db.portalData.any (fun p => p.clientId == c.id && p.finalPaid)))

/-- Fresh suffix for generated `FB-` invoice numbers.  The source derives
the number from the clock (`'FB-' + year + '-' + String(Date.now()).slice(-4)`,
src/index.js:4455), whose relevant property is freshness; the model
renders the `fbSeq` counter injectively. -/
def fbSuffix (n : Nat) : String :=
  String.mk (List.replicate n 'x')

/-- Every `FB-` number the sweep may still generate is unused: the
freshness the source obtains from the clock-derived suffix. -/
def fbFresh (d : DB) : Prop :=
  ∀ j : Nat, d.fbSeq ≤ j → ∀ i ∈ d.invoices, i.invoiceNumber ≠ "FB-" ++ fbSuffix j

/-- Balance lookup shared by both reminder windows
(src/index.js:4311-4323 and 4398-4410): the newest paid `deposit`
invoice supplies `(proposalTotal, tastingCredit, depositPaid)`, each
defaulting to 0. -/
def upcomingBalanceInfo (db : DB) (cid : Nat) : Rat × Rat × Rat :=
  match (db.invoices.filter (fun i =>
      i.clientId == some cid && i.type == "deposit" && i.status == "paid")).getLast? with
  | some inv =>
    (inv.data.proposalTotal.getD 0, inv.data.tastingCredit.getD 0,
      if inv.amount == 0 then inv.data.amount.getD 0 else inv.amount)
  | none => (0, 0, 0)

/-- Loop body of `checkUpcomingEvents` for one candidate
(src/index.js:4287-4487).  In the `(14, 30]` window a one-month reminder
is sent unless a `one_month` ledger row exists, and the row is written
only on a successful send.  In the `(0, 14]` window, unless a `two_week`
ledger row exists, a fresh `FB-` numbered `final` invoice for the
computed balance is inserted (before the send, inside the same try
block), then the reminder is sent and the `two_week` row written only on
success.  `oc` gives the transport outcome per client id. -/
def processUpcomingClient (now : Int) (oc : Nat → Bool) (db : DB) (c : Client) :
    DB × List Email :=
  let daysUntil := c.eventDate.getD 0 - now
  if daysUntil ≤ 30 && daysUntil > 14 then
    if db.remindersSent.any (fun rs => rs.clientId == c.id && rs.type == "one_month") then
      (db, [])
    else
      let info := upcomingBalanceInfo db c.id
      let remaining := ⌊info.1 - info.2.1 - info.2.2⌋
      let balanceAmount :=
        if remaining > 0 then "$" ++ toString remaining else "your remaining balance"
      let t := getTemplate db "one-month-reminder" defaultOneMonthReminderTemplate
      let subject := jsReplaceAll
        (jsReplaceAll
          (jsReplaceAll t.subject "{firstName}" (getFirstName (some c.name)))
          "{eventType}" (lowerStr (c.eventType.getD "event")))
        "{balanceAmount}" balanceAmount
      if oc c.id then
        ({ db with
            remindersSent := db.remindersSent ++ [⟨c.id, "one_month"⟩],
            communications := db.communications ++
              [{ clientId := c.id, type := "email", subject := subject, message := "" }] },
          [{ toAddr := c.email.getD "", subject := subject }])
      else (db, [])
  else if daysUntil ≤ 14 && daysUntil > 0 then
    if db.remindersSent.any (fun rs => rs.clientId == c.id && rs.type == "two_week") then
      (db, [])
    else
      let info := upcomingBalanceInfo db c.id
      let balanceAmount := info.1 - info.2.1 - info.2.2
      let balanceFormatted :=
        if balanceAmount > 0 then "$" ++ toString ⌊balanceAmount⌋ else "your remaining balance"
      let t := getTemplate db "two-week-reminder" defaultTwoWeekReminderTemplate
      let subject := jsReplaceAll
        (jsReplaceAll
          (jsReplaceAll t.subject "{firstName}" (getFirstName (some c.name)))
          "{eventType}" (lowerStr (c.eventType.getD "event")))
        "{balanceAmount}" balanceFormatted
      let fbNum := "FB-" ++ fbSuffix db.fbSeq
      let dbInv :=
        if db.invoices.any (fun i => i.invoiceNumber == fbNum) then
          { db with fbSeq := db.fbSeq + 1 }
        else
          { db with
            fbSeq := db.fbSeq + 1,
            invoices := db.invoices ++
              [{ clientId := some c.id, invoiceNumber := fbNum, type := "final",
                 amount := balanceAmount, status := "sent", paidAt := none,
                 data := { InvoiceData.empty with
                           proposalTotal := some info.1, tastingCredit := some info.2.1,
                           depositPaid := some info.2.2, clientName := some c.name,
                           clientEmail := c.email } }] }
      if oc c.id then
        ({ dbInv with
            remindersSent := dbInv.remindersSent ++ [⟨c.id, "two_week"⟩],
            communications := dbInv.communications ++
              [{ clientId := c.id, type := "email", subject := subject, message := "" }] },
          [{ toAddr := c.email.getD "", subject := subject }])
      else (dbInv, [])
  else (db, [])

/-- Source `checkUpcomingEvents` (src/index.js:4263-4493): bail out
without a Gmail token, compute the candidate list once, then process
each candidate, threading the store. -/
def checkUpcomingEvents (now : Int) (oc : Nat → Bool) (db : DB) : DB × List Email :=
  if !db.gmailToken then (db, [])
  else
    (upcomingCandidates now db).foldl
      (fun acc c =>
        let r := processUpcomingClient now oc acc.1 c
        (r.1, acc.2 ++ r.2))
      (db, [])

/-! ### Concrete records used to exercise the upcoming-event sweep -/

/-- A booked client whose event is on day 10. -/
def adaClient : Client :=
  { id := 6, name := "Ada Lovelace", email := some "ada@example.com",
    status := "booked", eventDate := some 10, eventType := some "Wedding",
    venue := none, tastingDate := none, tastingTime := none }

/-- Store where the `two_week` ledger row for client 6 is already present. -/
def adaLedgerDB : DB :=
  { emptyDB with
    clients := [adaClient],
    remindersSent := [⟨6, "two_week"⟩] }

/-- A pre-existing `final`-type invoice for client 6. -/
def fi1Invoice : Invoice :=
  { clientId := some 6, invoiceNumber := "FI-1", type := "final",
    amount := 1000, status := "sent", paidAt := none, data := InvoiceData.empty }

/-- Store holding that invoice but no `two_week` ledger row. -/
def adaFinalDB : DB :=
  { emptyDB with
    clients := [adaClient],
    invoices := [fi1Invoice] }

/-- Store where Ada has a proposal signed 25 hours ago, no `deposit`
revenue row and no `deposit-reminder` ledger row. -/
def adaProposalDB : DB :=
  { emptyDB with
    clients := [adaClient],
    proposals := [⟨6, "signed", 0⟩] }

/-! ### Lemmas about the replacement scanner -/

theorem mem_of_isPrefixB : ∀ {r v : List Char}, isPrefixB r v = true →
    ∀ {ch : Char}, ch ∈ r → ch ∈ v := by
  intro r
  induction r with
  | nil => intro v _ ch hch; exact absurd hch (List.not_mem_nil ch)
  | cons a r' ih =>
    intro v hpre ch hch
    cases v with
    | nil => simp [isPrefixB] at hpre
    | cons b v' =>
      simp only [isPrefixB, Bool.and_eq_true, beq_iff_eq] at hpre
      rcases List.mem_cons.mp hch with h | h
      · exact List.mem_cons.mpr (Or.inl (h.trans hpre.1))
      · exact List.mem_cons.mpr (Or.inr (ih hpre.2 h))

theorem isPrefixB_split : ∀ {v r t : List Char}, isPrefixB r (v ++ t) = true →
    isPrefixB r v = true ∨ isPrefixB v r = true := by
  intro v
  induction v with
  | nil => intro r t _; exact Or.inr rfl
  | cons x v' ih =>
    intro r t hpre
    cases r with
    | nil => exact Or.inl rfl
    | cons a r' =>
      simp only [List.cons_append, isPrefixB, Bool.and_eq_true, beq_iff_eq] at hpre ⊢
      rcases ih hpre.2 with h | h
      · exact Or.inl ⟨hpre.1, h⟩
      · exact Or.inr ⟨hpre.1.symm, h⟩

theorem containsB_of_isPrefixB {p s : List Char} (h : isPrefixB p s = true) :
    containsB p s = true := by
  cases s with
  | nil => simpa [containsB] using h
  | cons c rest => simp [containsB, h]

theorem containsB_append_left {p t : List Char} (h : containsB p t = true) :
    ∀ v : List Char, containsB p (v ++ t) = true := by
  intro v
  induction v with
  | nil => simpa using h
  | cons x v' ih => simp [containsB, ih]

theorem containsB_of_prefix_suffix {v r d p : List Char}
    (hpre : isPrefixB v r = true) (hdr : d ++ r = p) : containsB v p = true := by
  subst hdr
  exact containsB_append_left (containsB_of_isPrefixB hpre) d

theorem containsB_peel {p0 : Char} {p' t : List Char} :
    ∀ {v : List Char}, p0 ∉ v → containsB (p0 :: p') (v ++ t) = true →
    containsB (p0 :: p') t = true := by
  intro v
  induction v with
  | nil => intro _ h; simpa using h
  | cons x v' ih =>
    intro hnm h
    simp only [List.cons_append, containsB, Bool.or_eq_true] at h
    rcases h with h | h
    · simp only [isPrefixB, Bool.and_eq_true, beq_iff_eq] at h
      exact absurd (List.mem_cons.mpr (Or.inl h.1)) hnm
    · exact ih (fun hm => hnm (List.mem_cons.mpr (Or.inr hm))) h

theorem containsB_tail_false {p : List Char} {c : Char} {rest : List Char}
    (h : containsB p (c :: rest) = false) : containsB p rest = false := by
  simp only [containsB, Bool.or_eq_false_iff] at h
  exact h.2

theorem containsB_drop_false {p : List Char} :
    ∀ (n : Nat) {s : List Char}, containsB p s = false → containsB p (s.drop n) = false := by
  intro n
  induction n with
  | zero => intro s h; simpa using h
  | succ n ih =>
    intro s h
    cases s with
    | nil => simpa using h
    | cons c rest => exact ih (containsB_tail_false h)

theorem getLast?_tail {r0 : List Char} {c lc : Char} (hne : r0 ≠ [])
    (h : (c :: r0).getLast? = some lc) : r0.getLast? = some lc := by
  cases r0 with
  | nil => exact absurd rfl hne
  | cons x xs => rwa [List.getLast?_cons_cons] at h

theorem mem_of_getLast?_eq {l : List Char} {a : Char} (h : l.getLast? = some a) :
    a ∈ l := by
  induction l with
  | nil => simp at h
  | cons x xs ih =>
    cases xs with
    | nil => simp_all
    | cons y ys =>
      rw [List.getLast?_cons_cons] at h
      exact List.mem_cons.mpr (Or.inr (ih h))

/-- Core transfer lemma: if a nonempty suffix `r` of the pattern `p` is a
prefix of the scanner's output, and the replacement text `v` neither
contains `p`'s last character nor occurs inside `p`, then `r` was already
a prefix of the scanner's input. -/
theorem replaceAllFuel_prefix_transfer {q v p : List Char} {lc : Char}
    (hlcv : lc ∉ v) (hinf : containsB v p = false) :
    ∀ (fuel : Nat) (s r d : List Char), r ≠ [] → d ++ r = p → r.getLast? = some lc →
      isPrefixB r (replaceAllFuel q v fuel s) = true → isPrefixB r s = true := by
  intro fuel
  induction fuel with
  | zero => intro s r d _ _ _ h; simpa [replaceAllFuel] using h
  | succ fuel ih =>
    intro s r d hr hdr hlast h
    cases s with
    | nil =>
      simp only [replaceAllFuel] at h
      cases r with
      | nil => exact absurd rfl hr
      | cons a r' => simp [isPrefixB] at h
    | cons c rest =>
      by_cases hcond : (!q.isEmpty && isPrefixB q (c :: rest)) = true
      · rw [replaceAllFuel, if_pos hcond] at h
        rcases isPrefixB_split h with hcase | hcase
        · exact absurd (mem_of_isPrefixB hcase (mem_of_getLast?_eq hlast)) hlcv
        · rw [containsB_of_prefix_suffix hcase hdr] at hinf
          exact absurd hinf (by simp)
      · rw [replaceAllFuel, if_neg hcond] at h
        cases r with
        | nil => exact absurd rfl hr
        | cons a r0 =>
          simp only [isPrefixB, Bool.and_eq_true, beq_iff_eq] at h ⊢
          refine ⟨h.1, ?_⟩
          cases hr0 : r0 with
          | nil => simp [hr0] at h ⊢; rfl
          | cons y ys =>
            have hne : r0 ≠ [] := by simp [hr0]
            have := ih rest r0 (d ++ [a]) hne (by simpa using hdr)
              (getLast?_tail hne hlast) (hr0 ▸ h.2)
            exact hr0 ▸ this

/-- Every occurrence of the pattern is gone after `replaceAllL pat v`
runs, provided `v` contains neither the first nor the last character of
`pat` and does not occur inside `pat`. -/
theorem containsB_replaceAllFuel_self {p v : List Char} {hc lcc : Char}
    (hp : p ≠ []) (hhead : p.head? = some hc) (hhv : hc ∉ v)
    (hlast : p.getLast? = some lcc) (hlv : lcc ∉ v)
    (hinf : containsB v p = false) :
    ∀ (fuel : Nat) (s : List Char), s.length ≤ fuel →
      containsB p (replaceAllFuel p v fuel s) = false := by
  intro fuel
  induction fuel with
  | zero =>
    intro s hs
    have : s = [] := List.length_eq_zero.mp (Nat.le_zero.mp hs)
    subst this
    cases p with
    | nil => exact absurd rfl hp
    | cons a p' => simp [replaceAllFuel, containsB, isPrefixB]
  | succ fuel ih =>
    intro s hs
    cases s with
    | nil =>
      cases p with
      | nil => exact absurd rfl hp
      | cons a p' => simp [replaceAllFuel, containsB, isPrefixB]
    | cons c rest =>
      by_cases hcond : (!p.isEmpty && isPrefixB p (c :: rest)) = true
      · rw [replaceAllFuel, if_pos hcond]
        cases p with
        | nil => exact absurd rfl hp
        | cons a p' =>
          have ha : a = hc := by simpa using hhead
          have hlen : ((c :: rest).drop (a :: p').length).length ≤ fuel := by
            simp only [List.length_drop, List.length_cons] at hs ⊢
            omega
          have htail := ih ((c :: rest).drop (a :: p').length) hlen
          by_contra hcon
          have hcon' : containsB (a :: p') (v ++
              replaceAllFuel (a :: p') v fuel ((c :: rest).drop (a :: p').length)) = true := by
            revert hcon
            cases hx : containsB (a :: p') (v ++
              replaceAllFuel (a :: p') v fuel ((c :: rest).drop (a :: p').length)) <;> simp
          have := containsB_peel (ha ▸ hhv) hcon'
          rw [this] at htail
          exact absurd htail (by simp)
      · rw [replaceAllFuel, if_neg hcond]
        have hrest := ih rest (by simpa using Nat.le_of_succ_le_succ hs)
        have hnotpre : isPrefixB p (c :: rest) = false := by
          cases hq : isPrefixB p (c :: rest)
          · rfl
          · exfalso
            apply hcond
            simp [hq, List.isEmpty_eq_true, hp]
        cases p with
        | nil => exact absurd rfl hp
        | cons a p' =>
          simp only [containsB, Bool.or_eq_false_iff]
          refine ⟨?_, hrest⟩
          cases hpre : isPrefixB (a :: p') (c :: replaceAllFuel (a :: p') v fuel rest)
          · rfl
          · exfalso
            simp only [isPrefixB, Bool.and_eq_true, beq_iff_eq] at hpre
            cases hp' : p' with
            | nil =>
              rw [hp'] at hpre
              have : isPrefixB (a :: p') (c :: rest) = true := by
                simp [hp', isPrefixB, hpre.1]
              rw [this] at hnotpre; exact Bool.true_eq_false.mp hnotpre
            | cons y ys =>
              have hne : p' ≠ [] := by simp [hp']
              have hl' : p'.getLast? = some lcc := getLast?_tail hne hlast
              have := replaceAllFuel_prefix_transfer hlv hinf fuel rest p' [a]
                hne rfl hl' hpre.2
              have : isPrefixB (a :: p') (c :: rest) = true := by
                simp [isPrefixB, hpre.1, this]
              rw [this] at hnotpre; exact Bool.true_eq_false.mp hnotpre

/-- Replacing a (possibly different) pattern `q` cannot create a new
occurrence of `p`, provided the replacement text `v` contains neither
end character of `p` and does not occur inside `p`. -/
theorem containsB_replaceAllFuel_preserve {p q v : List Char} {hc lcc : Char}
    (hp : p ≠ []) (hhead : p.head? = some hc) (hhv : hc ∉ v)
    (hlast : p.getLast? = some lcc) (hlv : lcc ∉ v)
    (hinf : containsB v p = false) :
    ∀ (fuel : Nat) (s : List Char), containsB p s = false →
      containsB p (replaceAllFuel q v fuel s) = false := by
  intro fuel
  induction fuel with
  | zero => intro s hs; simpa [replaceAllFuel] using hs
  | succ fuel ih =>
    intro s hs
    cases s with
    | nil => simpa [replaceAllFuel] using hs
    | cons c rest =>
      by_cases hcond : (!q.isEmpty && isPrefixB q (c :: rest)) = true
      · rw [replaceAllFuel, if_pos hcond]
        have hdrop : containsB p ((c :: rest).drop q.length) = false :=
          containsB_drop_false q.length hs
        have htail := ih ((c :: rest).drop q.length) hdrop
        by_contra hcon
        have hcon' : containsB p (v ++
            replaceAllFuel q v fuel ((c :: rest).drop q.length)) = true := by
          revert hcon
          cases hx : containsB p (v ++ replaceAllFuel q v fuel ((c :: rest).drop q.length)) <;>
            simp
        cases p with
        | nil => exact absurd rfl hp
        | cons a p' =>
          have ha : a = hc := by simpa using hhead
          have := containsB_peel (ha ▸ hhv) hcon'
          rw [this] at htail
          exact absurd htail (by simp)
      · rw [replaceAllFuel, if_neg hcond]
        have hrest := ih rest (containsB_tail_false hs)
        cases p with
        | nil => exact absurd rfl hp
        | cons a p' =>
          simp only [containsB, Bool.or_eq_false_iff]
          refine ⟨?_, hrest⟩
          cases hpre : isPrefixB (a :: p') (c :: replaceAllFuel q v fuel rest)
          · rfl
          · exfalso
            simp only [isPrefixB, Bool.and_eq_true, beq_iff_eq] at hpre
            have hfalse : containsB (a :: p') (c :: rest) = true := by
              cases hp' : p' with
              | nil =>
                apply containsB_of_isPrefixB
                simp [isPrefixB, hpre.1]
              | cons y ys =>
                have hne : p' ≠ [] := by simp [hp']
                have hl' : p'.getLast? = some lcc := getLast?_tail hne hlast
                have := replaceAllFuel_prefix_transfer hlv hinf fuel rest p' [a]
                  hne rfl hl' hpre.2
                apply containsB_of_isPrefixB
                simp [isPrefixB, hpre.1, hp' ▸ this]
            rw [hfalse] at hs
            exact Bool.true_eq_false.mp hs

theorem containsB_replaceAllL_self {p v s : List Char} {hc lcc : Char}
    (hp : p ≠ []) (hhead : p.head? = some hc) (hhv : hc ∉ v)
    (hlast : p.getLast? = some lcc) (hlv : lcc ∉ v)
    (hinf : containsB v p = false) :
    containsB p (replaceAllL p v s) = false :=
  containsB_replaceAllFuel_self hp hhead hhv hlast hlv hinf s.length s (Nat.le_refl _)

theorem containsB_replaceAllL_preserve {p q v s : List Char} {hc lcc : Char}
    (hp : p ≠ []) (hhead : p.head? = some hc) (hhv : hc ∉ v)
    (hlast : p.getLast? = some lcc) (hlv : lcc ∉ v)
    (hinf : containsB v p = false) (hs : containsB p s = false) :
    containsB p (replaceAllL q v s) = false :=
  containsB_replaceAllFuel_preserve hp hhead hhv hlast hlv hinf s.length s hs

theorem braceFree_lbrace_not_mem {v : String} (h : braceFree v = true) :
    lbrace ∉ v.data := by
  intro hm
  have := List.all_eq_true.mp h lbrace hm
  simp at this

theorem braceFree_rbrace_not_mem {v : String} (h : braceFree v = true) :
    rbrace ∉ v.data := by
  intro hm
  have := List.all_eq_true.mp h rbrace hm
  simp at this

/-! ### Frame lemmas for the payment completion pipeline -/

theorem createEventPrep_clients (cid : Nat) (db : DB) :
    (createEventPrepCalendarEvent cid db).clients = db.clients := by
  unfold createEventPrepCalendarEvent
  split
  · rfl
  · split <;> rfl

theorem createEventPrep_invoices (cid : Nat) (db : DB) :
    (createEventPrepCalendarEvent cid db).invoices = db.invoices := by
  unfold createEventPrepCalendarEvent
  split
  · rfl
  · split <;> rfl

theorem createEventPrep_revenue (cid : Nat) (db : DB) :
    (createEventPrepCalendarEvent cid db).revenue = db.revenue := by
  unfold createEventPrepCalendarEvent
  split
  · rfl
  · split <;> rfl

theorem clientStatusUpdate_invoices (ev : PaymentEvent) (db : DB) :
    (clientStatusUpdate ev db).invoices = db.invoices := by
  unfold clientStatusUpdate
  cases hC : ev.clientId with
  | none => cases ev.invoiceType <;> rfl
  | some cid =>
    cases ev.invoiceType with
    | none => rfl
    | some t =>
      by_cases h1 : t == "tasting"
      · simp [h1]
      · by_cases h2 : t == "deposit"
        · simp [h1, h2, createEventPrep_invoices]
        · by_cases h3 : t == "final" <;> simp [h1, h2, h3]

theorem clientStatusUpdate_revenue (ev : PaymentEvent) (db : DB) :
    (clientStatusUpdate ev db).revenue = db.revenue := by
  unfold clientStatusUpdate
  cases hC : ev.clientId with
  | none => cases ev.invoiceType <;> rfl
  | some cid =>
    cases ev.invoiceType with
    | none => rfl
    | some t =>
      by_cases h1 : t == "tasting"
      · simp [h1]
      · by_cases h2 : t == "deposit"
        · simp [h1, h2, createEventPrep_revenue]
        · by_cases h3 : t == "final" <;> simp [h1, h2, h3]

theorem recordRevenue_invoices (ev : PaymentEvent) (db : DB) :
    (recordRevenue ev db).invoices = db.invoices := by
  unfold recordRevenue
  cases ev.clientId <;> rfl

theorem recordRevenue_clients (ev : PaymentEvent) (db : DB) :
    (recordRevenue ev db).clients = db.clients := by
  unfold recordRevenue
  cases ev.clientId <;> rfl

theorem recordRevenue_calendarEvents (ev : PaymentEvent) (db : DB) :
    (recordRevenue ev db).calendarEvents = db.calendarEvents := by
  unfold recordRevenue
  cases ev.clientId <;> rfl

theorem cce_frames (ev : PaymentEvent) (db : DB) :
    (clientConfirmationEmail ev db).1.clients = db.clients ∧
    (clientConfirmationEmail ev db).1.invoices = db.invoices ∧
    (clientConfirmationEmail ev db).1.portalData = db.portalData ∧
    (clientConfirmationEmail ev db).1.revenue = db.revenue ∧
    (clientConfirmationEmail ev db).1.calendarEvents = db.calendarEvents := by
  cases hE : ev.clientEmail <;>
    cases hG : db.gmailToken <;>
      cases hC : ev.clientId <;>
        simp [clientConfirmationEmail, hE, hG, hC]

theorem handle_invoices (now : Int) (ev : PaymentEvent) (db : DB) :
    (handlePaymentCompleted now ev db).1.invoices = invoiceUpsert now ev db.invoices := by
  show (clientConfirmationEmail ev _).1.invoices = _
  rw [(cce_frames ev _).2.1, recordRevenue_invoices, clientStatusUpdate_invoices]

theorem handle_clients (now : Int) (ev : PaymentEvent) (db : DB) :
    (handlePaymentCompleted now ev db).1.clients
      = (clientStatusUpdate ev { db with invoices := invoiceUpsert now ev db.invoices }).clients := by
  show (clientConfirmationEmail ev _).1.clients = _
  rw [(cce_frames ev _).1, recordRevenue_clients]

theorem handle_calendarEvents (now : Int) (ev : PaymentEvent) (db : DB) :
    (handlePaymentCompleted now ev db).1.calendarEvents
      = (clientStatusUpdate ev
          { db with invoices := invoiceUpsert now ev db.invoices }).calendarEvents := by
  show (clientConfirmationEmail ev _).1.calendarEvents = _
  rw [(cce_frames ev _).2.2.2.2, recordRevenue_calendarEvents]

/-! ### Claim theorems -/

/-- C1: the claim states that submitting an identical completion event
twice yields exactly one `RevenueEntry` and at most one client-facing
email.  `handlePaymentCompleted` has no status check, transaction-id
ledger, or any other idempotence guard: delivering the same event twice
(same `externalTransactionId` and payload) appends a second revenue row
and sends a second client email. -/
theorem C1_duplicate_event_double_counts :
    ((handlePaymentCompleted 0
        { invoiceId := some "DI-2026-0001", invoiceType := none, clientId := some 1,
          clientName := some "Ada Lovelace", clientEmail := some "ada@example.com",
          amountCents := 10000, stripeId := "tx_1" }
        (handlePaymentCompleted 0
          { invoiceId := some "DI-2026-0001", invoiceType := none, clientId := some 1,
            clientName := some "Ada Lovelace", clientEmail := some "ada@example.com",
            amountCents := 10000, stripeId := "tx_1" } emptyDB).1).1.revenue.length = 2) ∧
    (((handlePaymentCompleted 0
        { invoiceId := some "DI-2026-0001", invoiceType := none, clientId := some 1,
          clientName := some "Ada Lovelace", clientEmail := some "ada@example.com",
          amountCents := 10000, stripeId := "tx_1" } emptyDB).2 ++
      (handlePaymentCompleted 0
        { invoiceId := some "DI-2026-0001", invoiceType := none, clientId := some 1,
          clientName := some "Ada Lovelace", clientEmail := some "ada@example.com",
          amountCents := 10000, stripeId := "tx_1" }
        (handlePaymentCompleted 0
          { invoiceId := some "DI-2026-0001", invoiceType := none, clientId := some 1,
            clientName := some "Ada Lovelace", clientEmail := some "ada@example.com",
            amountCents := 10000, stripeId := "tx_1" } emptyDB).1).2).filter
        (fun m => m.toAddr == "ada@example.com")).length = 2 := by
  constructor
  · rfl
  · rfl

/-- C2: the claim states that `paid` is terminal.  The offline-claimed
endpoint runs `UPDATE invoices SET status = 'pending_verification' WHERE
invoice_number = $1` with no status guard, so a `paid` invoice is
knocked back to `pending_verification`. -/
theorem C2_offline_claim_downgrades_paid :
    (offlineClaimed
        { invoiceId := some "DI-2026-0001", invoiceType := some "deposit", clientId := some 1,
          clientName := some "Ada Lovelace", clientEmail := some "ada@example.com",
          amount := some 250, paymentMethod := some "zelle" }
        { emptyDB with invoices :=
            [{ clientId := some 1, invoiceNumber := "DI-2026-0001", type := "deposit",
               amount := 250, status := "paid", paidAt := some 0,
               data := InvoiceData.empty }] }).map
      (fun r => r.1.invoices.map (fun i => i.status)) = some ["pending_verification"] := by
  rfl

/-- C3: a completion event whose invoice identifier matches no stored
invoice makes the handler insert a fresh invoice directly in `paid`
with the event's reported amount (in dollars, `amountCents / 100`),
rather than erroring. -/
theorem C3_upsert_creates_paid_invoice (now : Int) (ev : PaymentEvent) (db : DB) (n : String)
    (hN : ev.invoiceId = some n)
    (habs : db.invoices.any (fun i => i.invoiceNumber == n) = false) :
    ∃ inv : Invoice,
      (handlePaymentCompleted now ev db).1.invoices = db.invoices ++ [inv] ∧
      inv.invoiceNumber = n ∧ inv.status = "paid" ∧
      inv.amount = ev.amountCents / 100 ∧ inv.type = ev.invoiceType.getD "other" := by
  rw [handle_invoices]
  unfold invoiceUpsert
  rw [hN]
  simp only [habs, Bool.false_eq_true, if_false]
  exact ⟨_, rfl, rfl, rfl, rfl, rfl⟩

/-- Witness for C3 at a concrete event and empty store. -/
theorem C3_upsert_creates_paid_invoice_witness :
    ({ invoiceId := some "FB-2026-1234", invoiceType := some "final", clientId := some 2,
       clientName := none, clientEmail := none, amountCents := 50000,
       stripeId := "tx_9" } : PaymentEvent).invoiceId = some "FB-2026-1234" ∧
    (emptyDB.invoices.any (fun i => i.invoiceNumber == "FB-2026-1234") = false) ∧
    ∃ inv : Invoice,
      (handlePaymentCompleted 7
        { invoiceId := some "FB-2026-1234", invoiceType := some "final", clientId := some 2,
          clientName := none, clientEmail := none, amountCents := 50000,
          stripeId := "tx_9" } emptyDB).1.invoices = emptyDB.invoices ++ [inv] ∧
      inv.invoiceNumber = "FB-2026-1234" ∧ inv.status = "paid" ∧
      inv.amount = (50000 : Rat) / 100 ∧ inv.type = (some "final").getD "other" :=
  ⟨rfl, by decide, C3_upsert_creates_paid_invoice 7 _ emptyDB "FB-2026-1234" rfl (by decide)⟩

/-- C4: a valid offline-claimed call leaves the revenue ledger
untouched, and the referenced invoice (updated in place, or created when
absent) ends in `pending_verification`, never `paid`. -/
theorem C4_offline_claim_pending_no_revenue (req : OfflineReq) (db : DB) (a : Rat) (n : String)
    (hA : req.amount = some a) (ha : a ≠ 0) (hN : req.invoiceId = some n) :
    ∃ res, offlineClaimed req db = some res ∧
      res.1.revenue = db.revenue ∧
      (∀ i ∈ res.1.invoices, i.invoiceNumber = n → i.status = "pending_verification") ∧
      res.1.invoices.any (fun i => i.invoiceNumber == n) = true := by
  unfold offlineClaimed
  rw [hA, hN]
  have ha' : (a == 0) = false := by simpa using ha
  simp only [ha', Bool.false_eq_true, if_false]
  by_cases hex : db.invoices.any (fun i => i.invoiceNumber == n) = true
  · rw [hex]
    simp only [if_true]
    refine ⟨_, rfl, ?_, ?_, ?_⟩
    · cases req.clientId <;> rfl
    · intro i hi hni
      have hrev : i ∈ db.invoices.map (fun i =>
          if i.invoiceNumber == n then
            { i with status := "pending_verification",
                     data := { i.data with paymentMethod := some (req.paymentMethod.getD "zelle") } }
          else i) := by
        cases hCid : req.clientId <;> simpa [hCid] using hi
      rcases List.mem_map.mp hrev with ⟨j, hj, hji⟩
      by_cases hjn : (j.invoiceNumber == n) = true
      · rw [if_pos hjn] at hji
        rw [← hji]
      · rw [if_neg hjn] at hji
        subst hji
        exact absurd (by simp [hni]) hjn
    · rcases List.any_eq_true.mp hex with ⟨j, hj, hjn⟩
      apply List.any_eq_true.mpr
      refine ⟨if j.invoiceNumber == n then
          { j with
            status := "pending_verification",
            data := { j.data with paymentMethod := some (req.paymentMethod.getD "zelle") } }
        else j, ?_, ?_⟩
      · cases hCid : req.clientId <;> simp [hCid] <;> exact ⟨j, hj, rfl⟩
      · rw [if_pos hjn]
        simpa using hjn
  · have hex' : db.invoices.any (fun i => i.invoiceNumber == n) = false := by
      cases h : db.invoices.any (fun i => i.invoiceNumber == n)
      · rfl
      · exact absurd h hex
    rw [hex']
    simp only [Bool.false_eq_true, if_false]
    refine ⟨_, rfl, ?_, ?_, ?_⟩
    · cases req.clientId <;> rfl
    · intro i hi hni
      have hmem : i ∈ db.invoices ++
          [{ clientId := req.clientId,
             invoiceNumber := n,
             type := req.invoiceType.getD "deposit",
             amount := a,
             status := "pending_verification",
             paidAt := none,
             data := { InvoiceData.empty with
                       paymentMethod := some (req.paymentMethod.getD "zelle"),
                       clientName := req.clientName,
                       clientEmail := req.clientEmail } }] := by
        cases hCid : req.clientId <;> simpa [hCid] using hi
      rcases List.mem_append.mp hmem with h | h
      · exfalso
        have : (i.invoiceNumber == n) = false := by
          cases hb : (i.invoiceNumber == n)
          · rfl
          · exact absurd (List.any_eq_true.mpr ⟨i, h, hb⟩) hex
        simp [hni] at this
      · rcases List.mem_singleton.mp h with rfl
        rfl
    · apply List.any_eq_true.mpr
      refine ⟨{ clientId := req.clientId,
                invoiceNumber := n,
                type := req.invoiceType.getD "deposit",
                amount := a,
                status := "pending_verification",
                paidAt := none,
                data := { InvoiceData.empty with
                          paymentMethod := some (req.paymentMethod.getD "zelle"),
                          clientName := req.clientName,
                          clientEmail := req.clientEmail } }, ?_, by simp⟩
      cases hCid : req.clientId <;> simp [hCid]

/-- Witness for C4: a concrete $250 claim against an empty store. -/
theorem C4_offline_claim_pending_no_revenue_witness :
    ({ invoiceId := some "DI-2026-0002", invoiceType := some "deposit", clientId := some 3,
       clientName := some "Grace Hopper", clientEmail := some "grace@example.com",
       amount := some 250, paymentMethod := none } : OfflineReq).amount = some 250 ∧
    (250 : Rat) ≠ 0 ∧
    ∃ res, offlineClaimed
        { invoiceId := some "DI-2026-0002", invoiceType := some "deposit", clientId := some 3,
          clientName := some "Grace Hopper", clientEmail := some "grace@example.com",
          amount := some 250, paymentMethod := none } emptyDB = some res ∧
      res.1.revenue = emptyDB.revenue ∧
      (∀ i ∈ res.1.invoices, i.invoiceNumber = "DI-2026-0002" →
        i.status = "pending_verification") ∧
      res.1.invoices.any (fun i => i.invoiceNumber == "DI-2026-0002") = true :=
  ⟨rfl, by decide,
    C4_offline_claim_pending_no_revenue _ emptyDB 250 "DI-2026-0002" rfl (by decide) rfl⟩

/-- C9: when the completion event carries no `clientId`, the handler
performs only the invoice upsert — no revenue row, no client or
portal-data update, and no calendar entries. -/
theorem C9_missing_client_only_invoice_upsert (now : Int) (ev : PaymentEvent) (db : DB)
    (h : ev.clientId = none) :
    (handlePaymentCompleted now ev db).1.revenue = db.revenue ∧
    (handlePaymentCompleted now ev db).1.clients = db.clients ∧
    (handlePaymentCompleted now ev db).1.portalData = db.portalData ∧
    (handlePaymentCompleted now ev db).1.calendarEvents = db.calendarEvents ∧
    (handlePaymentCompleted now ev db).1.invoices = invoiceUpsert now ev db.invoices := by
  have hcs : ∀ dbx : DB, clientStatusUpdate ev dbx = dbx := by
    intro dbx
    unfold clientStatusUpdate
    rw [h]
  have hrr : ∀ dbx : DB, recordRevenue ev dbx = dbx := by
    intro dbx
    unfold recordRevenue
    rw [h]
  refine ⟨?_, ?_, ?_, ?_, handle_invoices now ev db⟩
  · show (clientConfirmationEmail ev _).1.revenue = _
    rw [(cce_frames ev _).2.2.2.1, hrr, hcs]
  · show (clientConfirmationEmail ev _).1.clients = _
    rw [(cce_frames ev _).1, hrr, hcs]
  · show (clientConfirmationEmail ev _).1.portalData = _
    rw [(cce_frames ev _).2.2.1, hrr, hcs]
  · show (clientConfirmationEmail ev _).1.calendarEvents = _
    rw [(cce_frames ev _).2.2.2.2, hrr, hcs]

/-- Witness for C9 at a concrete event without a client id. -/
theorem C9_missing_client_only_invoice_upsert_witness :
    ({ invoiceId := some "TI-2026-0009", invoiceType := some "tasting", clientId := none,
       clientName := some "Ada Lovelace", clientEmail := some "ada@example.com",
       amountCents := 25000, stripeId := "tx_77" } : PaymentEvent).clientId = none ∧
    ((handlePaymentCompleted 3
        { invoiceId := some "TI-2026-0009", invoiceType := some "tasting", clientId := none,
          clientName := some "Ada Lovelace", clientEmail := some "ada@example.com",
          amountCents := 25000, stripeId := "tx_77" } emptyDB).1.revenue = emptyDB.revenue ∧
      (handlePaymentCompleted 3
        { invoiceId := some "TI-2026-0009", invoiceType := some "tasting", clientId := none,
          clientName := some "Ada Lovelace", clientEmail := some "ada@example.com",
          amountCents := 25000, stripeId := "tx_77" } emptyDB).1.clients = emptyDB.clients ∧
      (handlePaymentCompleted 3
        { invoiceId := some "TI-2026-0009", invoiceType := some "tasting", clientId := none,
          clientName := some "Ada Lovelace", clientEmail := some "ada@example.com",
          amountCents := 25000, stripeId := "tx_77" } emptyDB).1.portalData
          = emptyDB.portalData ∧
      (handlePaymentCompleted 3
        { invoiceId := some "TI-2026-0009", invoiceType := some "tasting", clientId := none,
          clientName := some "Ada Lovelace", clientEmail := some "ada@example.com",
          amountCents := 25000, stripeId := "tx_77" } emptyDB).1.calendarEvents
          = emptyDB.calendarEvents ∧
      (handlePaymentCompleted 3
        { invoiceId := some "TI-2026-0009", invoiceType := some "tasting", clientId := none,
          clientName := some "Ada Lovelace", clientEmail := some "ada@example.com",
          amountCents := 25000, stripeId := "tx_77" } emptyDB).1.invoices
          = invoiceUpsert 3
              { invoiceId := some "TI-2026-0009", invoiceType := some "tasting",
                clientId := none, clientName := some "Ada Lovelace",
                clientEmail := some "ada@example.com", amountCents := 25000,
                stripeId := "tx_77" } emptyDB.invoices) :=
  ⟨rfl, C9_missing_client_only_invoice_upsert 3 _ emptyDB rfl⟩

/-- C10: `sendDepositReminder` writes the dedup-ledger row only after
both the client email and the owner notification succeed; if the owner
notification fails after the client email was delivered, no row is
written (the store is untouched), leaving the client eligible on the
next sweep; if the client send fails, nothing is delivered and nothing
is written. -/
theorem C10_ledger_after_both_sends (oc : SendOutcome) (p : Proposal) (c : Client) (db : DB)
    (hG : db.gmailToken = true) :
    (oc.clientOk = true → oc.ownerOk = true →
      (sendDepositReminder oc p c db).1.remindersSent
        = db.remindersSent ++ [⟨c.id, "deposit-reminder"⟩]) ∧
    (oc.clientOk = true → oc.ownerOk = false →
      (sendDepositReminder oc p c db).1 = db ∧
      ((sendDepositReminder oc p c db).2.1).map (fun m => m.toAddr) = [c.email.getD ""]) ∧
    (oc.clientOk = false →
      (sendDepositReminder oc p c db).1 = db ∧ (sendDepositReminder oc p c db).2.1 = []) := by
  rcases oc with ⟨co, oo⟩
  cases co <;> cases oo <;>
    simp [sendDepositReminder, hG]

theorem find?_booked_map (cid : Nat) :
    ∀ l : List Client,
      (l.map (fun c' => if c'.id == cid then { c' with status := "booked" } else c')).find?
          (fun c' => c'.id == cid)
        = (l.find? (fun c' => c'.id == cid)).map
            (fun c' => if c'.id == cid then { c' with status := "booked" } else c') := by
  intro l
  induction l with
  | nil => rfl
  | cons x xs ih =>
    simp only [List.map_cons, List.find?]
    have hfx : ((if (x.id == cid) = true then ({ x with status := "booked" } : Client)
        else x).id == cid) = (x.id == cid) := by
      by_cases hx : (x.id == cid) = true
      · rw [if_pos hx]
      · rw [if_neg hx]
    rw [hfx]
    by_cases hx : (x.id == cid) = true
    · have hx2 : x.id = cid := by simpa using hx
      simp [hx, hx2]
    · have hx' : (x.id == cid) = false := by
        cases h : (x.id == cid)
        · rfl
        · exact absurd h hx
      rw [hx']
      exact ih

/-- C5: completing a `deposit`-type invoice for a client with a stored
event date `D` marks the client `booked` and appends exactly 8 calendar
entries: 7 consecutive `prep` entries on days `D-7 .. D-1` followed by
one `event` entry on `D`. -/
theorem C5_deposit_completion_books_and_schedules (now : Int) (ev : PaymentEvent) (db : DB)
    (cid : Nat) (c : Client) (d : Int)
    (hT : ev.invoiceType = some "deposit") (hC : ev.clientId = some cid)
    (hfind : db.clients.find? (fun c' => c'.id == cid) = some c)
    (hd : c.eventDate = some d) :
    (∀ c' ∈ (handlePaymentCompleted now ev db).1.clients,
        c'.id = cid → c'.status = "booked") ∧
    (handlePaymentCompleted now ev db).1.calendarEvents.length
        = db.calendarEvents.length + 8 ∧
    ((handlePaymentCompleted now ev db).1.calendarEvents.drop
          db.calendarEvents.length).map (fun e => (e.eventDate, e.eventType))
      = [(d - 7, "prep"), (d - 6, "prep"), (d - 5, "prep"), (d - 4, "prep"),
         (d - 3, "prep"), (d - 2, "prep"), (d - 1, "prep"), (d, "event")] := by
  have hpredc : (c.id == cid) = true := by simpa using List.find?_some hfind
  have hcsu : ∀ dbx : DB, clientStatusUpdate ev dbx
      = createEventPrepCalendarEvent cid
          { dbx with
            clients := dbx.clients.map (fun c' =>
              if c'.id == cid then { c' with status := "booked" } else c'),
            portalData := upsertPortal cid (fun p => { p with depositPaid := true })
              (⟨cid, false, true, false⟩ : PortalData) dbx.portalData } := by
    intro dbx
    unfold clientStatusUpdate
    rw [hC, hT]
    rfl
  have hcal : (handlePaymentCompleted now ev db).1.calendarEvents
      = db.calendarEvents ++
          (([7, 6, 5, 4, 3, 2, 1] : List Int).map (fun i =>
            ({ clientId := cid,
               title := String.mk ((splitOnSpace c.name.data).getLast?.getD []) ++ " Event Prep",
               eventDate := d - i, eventType := "prep",
               notes := "Day " ++ toString (8 - i) ++ " of 7 — event prep for " ++ c.name }
              : CalendarEvent))) ++
          [{ clientId := cid,
             title := String.mk ((splitOnSpace c.name.data).getLast?.getD []) ++
               (if strIncludes c.name "Wedding" then " Wedding" else " Event"),
             eventDate := d, eventType := "event", notes := "Event day for " ++ c.name }] := by
    rw [handle_calendarEvents, hcsu]
    unfold createEventPrepCalendarEvent
    rw [show ({ db with invoices := invoiceUpsert now ev db.invoices } : DB).clients
          = db.clients from rfl] at *
    rw [find?_booked_map, hfind, Option.map_some']
    rw [if_pos hpredc]
    show (match ({ c with status := "booked" } : Client).eventDate with
      | none => _ | some d => _ : DB).calendarEvents = _
    rw [show ({ c with status := "booked" } : Client).eventDate = some d from hd]
  refine ⟨?_, ?_, ?_⟩
  · rw [handle_clients, hcsu, createEventPrep_clients]
    intro c' hc' hid
    rcases List.mem_map.mp hc' with ⟨x, hx, rfl⟩
    by_cases hxc : (x.id == cid) = true
    · rw [if_pos hxc]
    · rw [if_neg hxc] at hid
      exact absurd (beq_iff_eq.mpr hid) (by simpa using hxc)
  · rw [hcal]
    simp [List.length_append]
  · rw [hcal, List.append_assoc, List.drop_left]
    simp

/-- Witness for C5: deposit completion for client 5 with event date 100
creates prep entries on days 93..99 and the event entry on day 100. -/
theorem C5_deposit_completion_books_and_schedules_witness :
    ({ invoiceId := some "DI-2026-0005", invoiceType := some "deposit", clientId := some 5,
       clientName := some "Ada Lovelace", clientEmail := none,
       amountCents := 125000, stripeId := "tx_5" } : PaymentEvent).invoiceType
        = some "deposit" ∧
    (({ emptyDB with clients :=
        [{ id := 5, name := "Ada Lovelace", email := some "ada@example.com",
           status := "inquiry", eventDate := some 100, eventType := some "Wedding",
           venue := some "The Ruins", tastingDate := none, tastingTime := none }] } : DB).clients.find?
        (fun c' => c'.id == 5)
      = some { id := 5, name := "Ada Lovelace", email := some "ada@example.com",
               status := "inquiry", eventDate := some 100, eventType := some "Wedding",
               venue := some "The Ruins", tastingDate := none, tastingTime := none }) ∧
    ((∀ c' ∈ (handlePaymentCompleted 0
        { invoiceId := some "DI-2026-0005", invoiceType := some "deposit", clientId := some 5,
          clientName := some "Ada Lovelace", clientEmail := none,
          amountCents := 125000, stripeId := "tx_5" }
        { emptyDB with clients :=
          [{ id := 5, name := "Ada Lovelace", email := some "ada@example.com",
             status := "inquiry", eventDate := some 100, eventType := some "Wedding",
             venue := some "The Ruins", tastingDate := none, tastingTime := none }] }).1.clients,
        c'.id = 5 → c'.status = "booked") ∧
      (handlePaymentCompleted 0
        { invoiceId := some "DI-2026-0005", invoiceType := some "deposit", clientId := some 5,
          clientName := some "Ada Lovelace", clientEmail := none,
          amountCents := 125000, stripeId := "tx_5" }
        { emptyDB with clients :=
          [{ id := 5, name := "Ada Lovelace", email := some "ada@example.com",
             status := "inquiry", eventDate := some 100, eventType := some "Wedding",
             venue := some "The Ruins", tastingDate := none, tastingTime := none }] }).1.calendarEvents.length
        = ({ emptyDB with clients :=
          [{ id := 5, name := "Ada Lovelace", email := some "ada@example.com",
             status := "inquiry", eventDate := some 100, eventType := some "Wedding",
             venue := some "The Ruins", tastingDate := none,
             tastingTime := none }] } : DB).calendarEvents.length + 8 ∧
      ((handlePaymentCompleted 0
        { invoiceId := some "DI-2026-0005", invoiceType := some "deposit", clientId := some 5,
          clientName := some "Ada Lovelace", clientEmail := none,
          amountCents := 125000, stripeId := "tx_5" }
        { emptyDB with clients :=
          [{ id := 5, name := "Ada Lovelace", email := some "ada@example.com",
             status := "inquiry", eventDate := some 100, eventType := some "Wedding",
             venue := some "The Ruins", tastingDate := none, tastingTime := none }] }).1.calendarEvents.drop
            ({ emptyDB with clients :=
              [{ id := 5, name := "Ada Lovelace", email := some "ada@example.com",
                 status := "inquiry", eventDate := some 100, eventType := some "Wedding",
                 venue := some "The Ruins", tastingDate := none,
                 tastingTime := none }] } : DB).calendarEvents.length).map
          (fun e => (e.eventDate, e.eventType))
        = [((100 : Int) - 7, "prep"), ((100 : Int) - 6, "prep"), ((100 : Int) - 5, "prep"),
           ((100 : Int) - 4, "prep"), ((100 : Int) - 3, "prep"), ((100 : Int) - 2, "prep"),
           ((100 : Int) - 1, "prep"), ((100 : Int), "event")]) :=
  ⟨rfl, by decide,
    C5_deposit_completion_books_and_schedules 0 _ _ 5
      { id := 5, name := "Ada Lovelace", email := some "ada@example.com",
        status := "inquiry", eventDate := some 100, eventType := some "Wedding",
        venue := some "The Ruins", tastingDate := none, tastingTime := none } 100 rfl rfl
      (by decide) rfl⟩

theorem substSafe_spec {v : String} {pats : List String} (h : substSafe v pats = true) :
    lbrace ∉ v.data ∧ rbrace ∉ v.data ∧ ∀ q ∈ pats, containsB v.data q.data = false := by
  unfold substSafe at h
  rcases Bool.and_eq_true_iff.mp h with ⟨h1, h2⟩
  refine ⟨braceFree_lbrace_not_mem h1, braceFree_rbrace_not_mem h1, ?_⟩
  intro q hq
  have := List.all_eq_true.mp h2 q hq
  simpa using this

theorem applySubsts_preserve (pat : String) (hp : pat.data ≠ [])
    (hh : pat.data.head? = some lbrace) (hl : pat.data.getLast? = some rbrace) :
    ∀ (subs : List (String × String)) (s : String),
      (∀ pv ∈ subs, lbrace ∉ pv.2.data ∧ rbrace ∉ pv.2.data ∧
        containsB pv.2.data pat.data = false) →
      containsB pat.data s.data = false →
      containsB pat.data (applySubsts subs s).data = false := by
  intro subs
  induction subs with
  | nil => intro s _ hs; exact hs
  | cons pv rest ih =>
    intro s hsafe hs
    have hhead := hsafe pv (List.mem_cons_self pv rest)
    have hstep : containsB pat.data (jsReplaceAll s pv.1 pv.2).data = false :=
      containsB_replaceAllL_preserve hp hh hhead.1 hl hhead.2.1 hhead.2.2 hs
    exact ih (jsReplaceAll s pv.1 pv.2)
      (fun q hq => hsafe q (List.mem_cons_of_mem pv hq)) hstep

theorem applySubsts_kills (pat : String) (hp : pat.data ≠ [])
    (hh : pat.data.head? = some lbrace) (hl : pat.data.getLast? = some rbrace) :
    ∀ (subs : List (String × String)) (s : String),
      pat ∈ subs.map Prod.fst →
      (∀ pv ∈ subs, lbrace ∉ pv.2.data ∧ rbrace ∉ pv.2.data ∧
        containsB pv.2.data pat.data = false) →
      containsB pat.data (applySubsts subs s).data = false := by
  intro subs
  induction subs with
  | nil => intro s hmem _; simp at hmem
  | cons pv rest ih =>
    intro s hmem hsafe
    by_cases hrest : pat ∈ rest.map Prod.fst
    · exact ih (jsReplaceAll s pv.1 pv.2) hrest
        (fun q hq => hsafe q (List.mem_cons_of_mem pv hq))
    · have hq : pat = pv.1 := by
        rw [List.map_cons] at hmem
        rcases List.mem_cons.mp hmem with h | h
        · exact h
        · exact absurd h hrest
      have hhead := hsafe pv (List.mem_cons_self pv rest)
      have hself : containsB pat.data (jsReplaceAll s pv.1 pv.2).data = false := by
        rw [hq]
        exact containsB_replaceAllL_self (hq ▸ hp) (hq ▸ hh) hhead.1 (hq ▸ hl)
          hhead.2.1 (hq ▸ hhead.2.2)
      exact applySubsts_preserve pat hp hh hl rest (jsReplaceAll s pv.1 pv.2)
        (fun q hqm => hsafe q (List.mem_cons_of_mem pv hqm)) hself

/-- C8 counterexample: the claim says unresolved or unknown placeholder
tokens are replaced with an empty string, but the renderer performs only
the fixed chain of recognised-token replacements, so an unknown token
such as `{fooBar}` is left literally in the output (and the output is
not the empty string the claim would require). -/
theorem C8_unknown_placeholder_left_literal :
    bookingBodySubst
        { firstName := "Ada", amountFormatted := "$100", eventType := some "Wedding",
          eventDate := some "June 1 2026", venue := some "The Ruins",
          balanceDueDate := some "May 18 2026" } "{fooBar}" = "{fooBar}" ∧
    "{fooBar}" ≠ "" := by
  constructor
  · rfl
  · decide

/-- C8 (amended): the renderer substitutes every occurrence of each
recognised `{placeholderName}` token in the template body (shown here for
the booking- and tasting-confirmation substitution chains), leaving zero
occurrences of any recognised token, provided every substituted value
(after the source's per-token fallback) is brace-free and does not occur
inside a token.  Unknown tokens are left literal, and unresolved
recognised tokens fall back to per-token default text, not to the empty
string. -/
theorem C8_recognized_placeholders_fully_substituted (body : String)
    (bd : BookingEmailData) (td : TastingEmailData)
    (hb1 : substSafe bd.firstName bookingPlaceholders = true)
    (hb2 : substSafe bd.amountFormatted bookingPlaceholders = true)
    (hb3 : substSafe (lowerStr (bd.eventType.getD "celebration")) bookingPlaceholders = true)
    (hb4 : substSafe (bd.eventDate.getD "your event") bookingPlaceholders = true)
    (hb5 : substSafe (bd.venue.getD "") bookingPlaceholders = true)
    (hb6 : substSafe (bd.balanceDueDate.getD "two weeks before your event")
      bookingPlaceholders = true)
    (ht1 : substSafe td.firstName tastingPlaceholders = true)
    (ht2 : substSafe td.amountFormatted tastingPlaceholders = true)
    (ht3 : substSafe (td.tastingDate.getD "To be confirmed") tastingPlaceholders = true)
    (ht4 : substSafe (td.tastingTime.getD "") tastingPlaceholders = true) :
    (∀ pat ∈ bookingPlaceholders,
      containsB pat.data (bookingBodySubst bd body).data = false) ∧
    (∀ pat ∈ tastingPlaceholders,
      containsB pat.data (tastingBodySubst td body).data = false) := by
  have hbshape : ∀ pat ∈ bookingPlaceholders,
      pat.data ≠ [] ∧ pat.data.head? = some lbrace ∧ pat.data.getLast? = some rbrace := by
    decide
  have htshape : ∀ pat ∈ tastingPlaceholders,
      pat.data ≠ [] ∧ pat.data.head? = some lbrace ∧ pat.data.getLast? = some rbrace := by
    decide
  constructor
  · intro pat hpat
    obtain ⟨hp, hh, hl⟩ := hbshape pat hpat
    have he : bookingBodySubst bd body = applySubsts
        [("{firstName}", bd.firstName), ("{amount}", bd.amountFormatted),
         ("{eventType}", lowerStr (bd.eventType.getD "celebration")),
         ("{eventDate}", bd.eventDate.getD "your event"),
         ("{venue}", bd.venue.getD ""),
         ("{balanceDueDate}", bd.balanceDueDate.getD "two weeks before your event")] body := rfl
    rw [he]
    apply applySubsts_kills pat hp hh hl _ body
    · simpa [bookingPlaceholders] using hpat
    · intro pv hpv
      simp only [List.mem_cons, List.not_mem_nil, or_false] at hpv
      rcases hpv with rfl | rfl | rfl | rfl | rfl | rfl
      · exact ⟨(substSafe_spec hb1).1, (substSafe_spec hb1).2.1,
          (substSafe_spec hb1).2.2 pat hpat⟩
      · exact ⟨(substSafe_spec hb2).1, (substSafe_spec hb2).2.1,
          (substSafe_spec hb2).2.2 pat hpat⟩
      · exact ⟨(substSafe_spec hb3).1, (substSafe_spec hb3).2.1,
          (substSafe_spec hb3).2.2 pat hpat⟩
      · exact ⟨(substSafe_spec hb4).1, (substSafe_spec hb4).2.1,
          (substSafe_spec hb4).2.2 pat hpat⟩
      · exact ⟨(substSafe_spec hb5).1, (substSafe_spec hb5).2.1,
          (substSafe_spec hb5).2.2 pat hpat⟩
      · exact ⟨(substSafe_spec hb6).1, (substSafe_spec hb6).2.1,
          (substSafe_spec hb6).2.2 pat hpat⟩
  · intro pat hpat
    obtain ⟨hp, hh, hl⟩ := htshape pat hpat
    have he : tastingBodySubst td body = applySubsts
        [("{firstName}", td.firstName), ("{amount}", td.amountFormatted),
         ("{tastingDate}", td.tastingDate.getD "To be confirmed"),
         ("{tastingTime}", td.tastingTime.getD "")] body := rfl
    rw [he]
    apply applySubsts_kills pat hp hh hl _ body
    · simpa [tastingPlaceholders] using hpat
    · intro pv hpv
      simp only [List.mem_cons, List.not_mem_nil, or_false] at hpv
      rcases hpv with rfl | rfl | rfl | rfl
      · exact ⟨(substSafe_spec ht1).1, (substSafe_spec ht1).2.1,
          (substSafe_spec ht1).2.2 pat hpat⟩
      · exact ⟨(substSafe_spec ht2).1, (substSafe_spec ht2).2.1,
          (substSafe_spec ht2).2.2 pat hpat⟩
      · exact ⟨(substSafe_spec ht3).1, (substSafe_spec ht3).2.1,
          (substSafe_spec ht3).2.2 pat hpat⟩
      · exact ⟨(substSafe_spec ht4).1, (substSafe_spec ht4).2.1,
          (substSafe_spec ht4).2.2 pat hpat⟩

/-- Witness for the amended C8 at a concrete template body and concrete
substitution values. -/
theorem C8_recognized_placeholders_fully_substituted_witness :
    (substSafe ("Ada" : String) bookingPlaceholders = true) ∧
    ((∀ pat ∈ bookingPlaceholders,
        containsB pat.data (bookingBodySubst
          { firstName := "Ada", amountFormatted := "$1,250.00",
            eventType := some "Wedding", eventDate := some "June 1 2026",
            venue := some "The Ruins", balanceDueDate := some "May 18 2026" }
          "Hi {firstName}, your {eventType} at {venue} on {eventDate}: {amount} due {balanceDueDate}. {firstName}!").data
          = false) ∧
      (∀ pat ∈ tastingPlaceholders,
        containsB pat.data (tastingBodySubst
          { firstName := "Ada", amountFormatted := "$250.00",
            tastingDate := some "May 2 2026", tastingTime := some "2 PM" }
          "Hi {firstName}, your {eventType} at {venue} on {eventDate}: {amount} due {balanceDueDate}. {firstName}!").data
          = false)) :=
  ⟨by decide,
    C8_recognized_placeholders_fully_substituted _ _ _
      (by decide) (by decide) (by decide) (by decide) (by decide) (by decide)
      (by decide) (by decide) (by decide) (by decide)⟩

theorem fb_num_ne {m n : Nat} (h : m ≠ n) : "FB-" ++ fbSuffix m ≠ "FB-" ++ fbSuffix n := by
  intro he
  apply h
  have hd : "FB-".data ++ List.replicate m 'x' = "FB-".data ++ List.replicate n 'x' :=
    congrArg String.data he
  have := List.append_cancel_left hd
  exact (List.replicate_inj.mp this).1

theorem filter_singleton_split {α : Type} (p : α → Bool) :
    ∀ (l : List α) (a : α), l.filter p = [a] →
      ∃ l1 l2, l = l1 ++ a :: l2 ∧ (∀ x ∈ l1, p x = false) ∧ (∀ x ∈ l2, p x = false) := by
  intro l
  induction l with
  | nil => intro a h; simp at h
  | cons x xs ih =>
    intro a h
    by_cases hx : p x = true
    · rw [List.filter_cons_of_pos hx] at h
      injection h with h1 h2
      subst h1
      refine ⟨[], xs, rfl, by simp, ?_⟩
      intro y hy
      have := List.filter_eq_nil_iff.mp h2 y hy
      cases hb : p y
      · rfl
      · exact absurd hb this
    · have hx' : ¬ p x = true := hx
      rw [List.filter_cons_of_neg hx'] at h
      obtain ⟨l1, l2, rfl, h1, h2⟩ := ih a h
      refine ⟨x :: l1, l2, rfl, ?_, h2⟩
      intro y hy
      rcases List.mem_cons.mp hy with rfl | hy
      · cases hb : p y
        · rfl
        · exact absurd hb hx'
      · exact h1 y hy

theorem processUpcoming_other (now : Int) (oc : Nat → Bool) (cid : Nat) (c' : Client)
    (db' : DB) (hne : c'.id ≠ cid) :
    ((processUpcomingClient now oc db' c').1.invoices.countP
        (fun i => i.clientId == some cid && i.type == "final")
      = db'.invoices.countP (fun i => i.clientId == some cid && i.type == "final")) ∧
    ((processUpcomingClient now oc db' c').1.remindersSent.any
        (fun rs => rs.clientId == cid && rs.type == "two_week")
      = db'.remindersSent.any (fun rs => rs.clientId == cid && rs.type == "two_week")) ∧
    (fbFresh db' → fbFresh (processUpcomingClient now oc db' c').1) := by
  have hbeq : (c'.id == cid) = false := by simp [hne]
  have hbeq2 : ((some c'.id : Option Nat) == (some cid : Option Nat)) = false := by
    simp [hne]
  unfold processUpcomingClient
  dsimp only
  split
  · split
    · exact ⟨rfl, rfl, fun h => h⟩
    · split
      · refine ⟨rfl, ?_, fun h => h⟩
        simp [hbeq]
      · exact ⟨rfl, rfl, fun h => h⟩
  · split
    · split
      · exact ⟨rfl, rfl, fun h => h⟩
      · split
        · -- send succeeded: ledger row and communication appended
          split
          · -- generated number collided: no invoice inserted
            refine ⟨rfl, ?_, ?_⟩
            · simp [hbeq]
            · intro h j hj i hi
              dsimp only at hj hi
              exact h j (by omega) i hi
          · -- `final` invoice for c' inserted
            refine ⟨?_, ?_, ?_⟩
            · simp [hbeq2]
            · simp [hbeq]
            · intro h j hj i hi
              dsimp only at hj hi
              rcases List.mem_append.mp hi with hi | hi
              · exact h j (by omega) i hi
              · rcases List.mem_singleton.mp hi with rfl
                exact fb_num_ne (by omega)
        · -- send failed: no ledger row, invoice state as computed
          split
          · refine ⟨rfl, rfl, ?_⟩
            intro h j hj i hi
            dsimp only at hj hi
            exact h j (by omega) i hi
          · refine ⟨?_, rfl, ?_⟩
            · simp [hbeq2]
            · intro h j hj i hi
              dsimp only at hj hi
              rcases List.mem_append.mp hi with hi | hi
              · exact h j (by omega) i hi
              · rcases List.mem_singleton.mp hi with rfl
                exact fb_num_ne (by omega)
    · exact ⟨rfl, rfl, fun h => h⟩

theorem processUpcoming_target (now : Int) (oc : Nat → Bool) (cid : Nat) (c : Client)
    (db' : DB) (d : Int) (hcid : c.id = cid) (hd : c.eventDate = some d)
    (hfut : now < d) (hwin : d - now ≤ 14) (hfresh : fbFresh db') :
    (db'.remindersSent.any (fun rs => rs.clientId == cid && rs.type == "two_week") = true →
      (processUpcomingClient now oc db' c).1.invoices = db'.invoices) ∧
    (db'.remindersSent.any (fun rs => rs.clientId == cid && rs.type == "two_week") = false →
      ∃ inv : Invoice,
        (processUpcomingClient now oc db' c).1.invoices = db'.invoices ++ [inv] ∧
        inv.clientId = some cid ∧ inv.type = "final") := by
  unfold processUpcomingClient
  rw [hd, hcid]
  dsimp only [Option.getD_some]
  have hw1 : ¬ ((decide (d - now ≤ 30) && decide (d - now > 14)) = true) := by
    simp only [Bool.and_eq_true, decide_eq_true_eq]
    omega
  have hw2 : (decide (d - now ≤ 14) && decide (d - now > 0)) = true := by
    simp only [Bool.and_eq_true, decide_eq_true_eq]
    omega
  rw [if_neg hw1, if_pos hw2]
  constructor
  · intro htw
    rw [if_pos htw]
  · intro htw
    rw [if_neg (by rw [htw]; exact Bool.false_ne_true)]
    have hnofb : (db'.invoices.any
        (fun i => i.invoiceNumber == ("FB-" ++ fbSuffix db'.fbSeq))) = false := by
      apply List.any_eq_false.mpr
      intro i hi
      simp only [beq_iff_eq]
      exact hfresh db'.fbSeq (Nat.le_refl _) i hi
    split
    · rw [if_neg (by rw [hnofb]; exact Bool.false_ne_true)]
      exact ⟨_, rfl, rfl, rfl⟩
    · rw [if_neg (by rw [hnofb]; exact Bool.false_ne_true)]
      exact ⟨_, rfl, rfl, rfl⟩

theorem upcoming_fold_others (now : Int) (oc : Nat → Bool) (cid : Nat) :
    ∀ (l : List Client) (acc : DB × List Email),
      (∀ x ∈ l, x.id ≠ cid) →
      ((l.foldl (fun acc c =>
          let r := processUpcomingClient now oc acc.1 c
          (r.1, acc.2 ++ r.2)) acc).1.invoices.countP
            (fun i => i.clientId == some cid && i.type == "final")
        = acc.1.invoices.countP (fun i => i.clientId == some cid && i.type == "final")) ∧
      ((l.foldl (fun acc c =>
          let r := processUpcomingClient now oc acc.1 c
          (r.1, acc.2 ++ r.2)) acc).1.remindersSent.any
            (fun rs => rs.clientId == cid && rs.type == "two_week")
        = acc.1.remindersSent.any (fun rs => rs.clientId == cid && rs.type == "two_week")) ∧
      (fbFresh acc.1 → fbFresh ((l.foldl (fun acc c =>
          let r := processUpcomingClient now oc acc.1 c
          (r.1, acc.2 ++ r.2)) acc).1)) := by
  intro l
  induction l with
  | nil => intro acc _; exact ⟨rfl, rfl, fun h => h⟩
  | cons x xs ih =>
    intro acc hne
    have hx := processUpcoming_other now oc cid x acc.1 (hne x (List.mem_cons_self x xs))
    have ihx := ih (let r := processUpcomingClient now oc acc.1 x; (r.1, acc.2 ++ r.2))
      (fun y hy => hne y (List.mem_cons_of_mem x hy))
    rw [List.foldl_cons]
    refine ⟨?_, ?_, ?_⟩
    · rw [ihx.1, hx.1]
    · rw [ihx.2.1, hx.2.1]
    · intro h
      exact ihx.2.2 (hx.2.2 h)

/-- C7 (amended): in the `(0, 14]` window the daily sweep creates the
`final`-type invoice for the outstanding balance exactly when no
`two_week` reminder ledger row exists for the client — it does not check
whether a `final` invoice already exists.  (A duplicate of the freshly
generated `FB-` invoice number would be silently skipped by `ON CONFLICT
DO NOTHING`; `fbFresh` states the clock-derived freshness the source
relies on.) -/
theorem C7_final_invoice_guarded_by_ledger (now : Int) (oc : Nat → Bool) (db : DB)
    (cid : Nat) (c : Client) (d : Int)
    (hG : db.gmailToken = true)
    (hone : db.clients.filter (fun c' => c'.id == cid) = [c])
    (hstatus : c.status = "booked") (hd : c.eventDate = some d)
    (hfut : now < d) (hwin : d - now ≤ 14)
    (hfp : db.portalData.any (fun p => p.clientId == c.id && p.finalPaid) = false)
    (hfresh : fbFresh db) :
    (db.remindersSent.any (fun rs => rs.clientId == cid && rs.type == "two_week") = true →
      (checkUpcomingEvents now oc db).1.invoices.countP
          (fun i => i.clientId == some cid && i.type == "final")
        = db.invoices.countP (fun i => i.clientId == some cid && i.type == "final")) ∧
    (db.remindersSent.any (fun rs => rs.clientId == cid && rs.type == "two_week") = false →
      (checkUpcomingEvents now oc db).1.invoices.countP
          (fun i => i.clientId == some cid && i.type == "final")
        = db.invoices.countP (fun i => i.clientId == some cid && i.type == "final") + 1) := by
  have hcmem : c ∈ db.clients.filter (fun c' => c'.id == cid) := by
    rw [hone]
    exact List.mem_singleton_self c
  have hcid : c.id = cid := by
    have := List.of_mem_filter hcmem
    simpa using this
  have hqual : (fun c' : Client => c'.status == "booked" && c'.eventDate.isSome &&
      decide (now < c'.eventDate.getD 0) &&
      !(db.portalData.any (fun p => p.clientId == c'.id && p.finalPaid))) c = true := by
    simp only [hstatus, hd, hfp]
    simp
    omega
  have hcand : (upcomingCandidates now db).filter (fun x => x.id == cid) = [c] := by
    unfold upcomingCandidates
    rw [List.filter_comm, hone]
    simp [hqual]
  obtain ⟨l1, l2, hsplit, hl1, hl2⟩ :=
    filter_singleton_split (fun x => x.id == cid) (upcomingCandidates now db) c hcand
  have hl1' : ∀ x ∈ l1, x.id ≠ cid := by
    intro x hx heq
    have := hl1 x hx
    simp [heq] at this
  have hl2' : ∀ x ∈ l2, x.id ≠ cid := by
    intro x hx heq
    have := hl2 x hx
    simp [heq] at this
  have hrun : (checkUpcomingEvents now oc db)
      = ((l1 ++ c :: l2).foldl (fun acc c =>
          let r := processUpcomingClient now oc acc.1 c
          (r.1, acc.2 ++ r.2)) (db, [])) := by
    unfold checkUpcomingEvents
    rw [hG]
    rw [hsplit]
    rfl
  have hfold1 := upcoming_fold_others now oc cid l1 (db, []) hl1'
  set acc1 := (l1.foldl (fun acc c =>
      let r := processUpcomingClient now oc acc.1 c
      (r.1, acc.2 ++ r.2)) ((db, []) : DB × List Email)) with hacc1
  have hfresh1 : fbFresh acc1.1 := hfold1.2.2 hfresh
  have htarget := processUpcoming_target now oc cid c acc1.1 d hcid hd hfut hwin hfresh1
  constructor
  · intro htw
    have htw1 : acc1.1.remindersSent.any
        (fun rs => rs.clientId == cid && rs.type == "two_week") = true := by
      rw [hfold1.2.1]
      exact htw
    have hstep := htarget.1 htw1
    have hfold2 := upcoming_fold_others now oc cid l2
      (let r := processUpcomingClient now oc acc1.1 c; (r.1, acc1.2 ++ r.2)) hl2'
    rw [hrun, List.foldl_append, List.foldl_cons]
    rw [← hacc1]
    rw [hfold2.1]
    show (processUpcomingClient now oc acc1.1 c).1.invoices.countP _ = _
    rw [hstep, hfold1.1]
  · intro htw
    have htw1 : acc1.1.remindersSent.any
        (fun rs => rs.clientId == cid && rs.type == "two_week") = false := by
      rw [hfold1.2.1]
      exact htw
    obtain ⟨inv, hinv, hinvc, hinvt⟩ := htarget.2 htw1
    have hfold2 := upcoming_fold_others now oc cid l2
      (let r := processUpcomingClient now oc acc1.1 c; (r.1, acc1.2 ++ r.2)) hl2'
    rw [hrun, List.foldl_append, List.foldl_cons]
    rw [← hacc1]
    rw [hfold2.1]
    show (processUpcomingClient now oc acc1.1 c).1.invoices.countP _ = _
    rw [hinv, List.countP_append, hfold1.1]
    have hone' : List.countP (fun i => i.clientId == some cid && i.type == "final") [inv] = 1 := by
      simp [hinvc, hinvt]
    rw [hone']

/-- Witness for the amended C7: one booked client 9 days out with a
`two_week` ledger row already present — no invoice is created. -/
theorem C7_final_invoice_guarded_by_ledger_witness :
    (adaLedgerDB.clients.filter (fun c' => c'.id == 6) = [adaClient]) ∧
    (adaLedgerDB.remindersSent.any
        (fun rs => rs.clientId == 6 && rs.type == "two_week") = true →
      (checkUpcomingEvents 1 (fun _ => true) adaLedgerDB).1.invoices.countP
          (fun i => i.clientId == some 6 && i.type == "final")
        = adaLedgerDB.invoices.countP
          (fun i => i.clientId == some 6 && i.type == "final")) :=
  ⟨by decide,
    (C7_final_invoice_guarded_by_ledger 1 (fun _ => true) adaLedgerDB 6 adaClient 10
      rfl (by decide) rfl rfl (by decide) (by decide) (by decide)
      (by intro j _ i hi; exact absurd hi (List.not_mem_nil i))).1⟩

/-- C7 counterexample: a booked client 10 days out whose final balance is
unpaid, with no `two_week` ledger row, already has a `final`-type invoice
(`FI-1`); the sweep nevertheless inserts a second `final` invoice, so
"only if such an invoice does not already exist" is false. -/
theorem C7_creates_final_invoice_despite_existing :
    (checkUpcomingEvents 0 (fun _ => true) adaFinalDB).1.invoices.countP
      (fun i => i.clientId == some 6 && i.type == "final") = 2 := by
  decide

/-- Witness for C10: owner notification fails after the client email was
sent; no ledger row is written. -/
theorem C10_ledger_after_both_sends_witness :
    emptyDB.gmailToken = true ∧
    ((⟨true, false⟩ : SendOutcome).clientOk = true →
      (⟨true, false⟩ : SendOutcome).ownerOk = false →
      (sendDepositReminder ⟨true, false⟩ ⟨4, "signed", 0⟩
          { id := 4, name := "Ada Lovelace", email := some "ada@example.com",
            status := "inquiry", eventDate := some 120, eventType := some "Wedding",
            venue := none, tastingDate := none, tastingTime := none } emptyDB).1 = emptyDB ∧
      ((sendDepositReminder ⟨true, false⟩ ⟨4, "signed", 0⟩
          { id := 4, name := "Ada Lovelace", email := some "ada@example.com",
            status := "inquiry", eventDate := some 120, eventType := some "Wedding",
            venue := none, tastingDate := none, tastingTime := none } emptyDB).2.1).map
          (fun m => m.toAddr)
        = [(some "ada@example.com").getD ""]) :=
  ⟨rfl, (C10_ledger_after_both_sends ⟨true, false⟩ ⟨4, "signed", 0⟩ _ emptyDB rfl).2.1⟩

/-! ### The deposit-reminder sweep (C6) -/

theorem filter_cons_true {α : Type} (p : α → Bool) (a : α) (l : List α)
    (h : p a = true) : (a :: l).filter p = a :: l.filter p := by
  simp [List.filter_cons, h]

theorem filter_cons_false {α : Type} (p : α → Bool) (a : α) (l : List α)
    (h : p a = false) : (a :: l).filter p = l.filter p := by
  simp [List.filter_cons, h]

theorem filterMap_cons_eq_some {α β : Type} (f : α → Option β) (a : α) (b : β)
    (l : List α) (h : f a = some b) : (a :: l).filterMap f = b :: l.filterMap f := by
  simp [List.filterMap_cons, h]

theorem filterMap_cons_eq_none {α β : Type} (f : α → Option β) (a : α)
    (l : List α) (h : f a = none) : (a :: l).filterMap f = l.filterMap f := by
  simp [List.filterMap_cons, h]

theorem sdr_frames (oc : SendOutcome) (p : Proposal) (c : Client) (db : DB) :
    (sendDepositReminder oc p c db).1.revenue = db.revenue ∧
    (sendDepositReminder oc p c db).1.proposals = db.proposals ∧
    (sendDepositReminder oc p c db).1.clients = db.clients ∧
    (sendDepositReminder oc p c db).1.gmailToken = db.gmailToken := by
  rcases oc with ⟨co, oo⟩
  cases hg : db.gmailToken <;> cases co <;> cases oo <;>
    simp [sendDepositReminder, hg]

theorem sdr_ledger_other (oc : SendOutcome) (p : Proposal) (c : Client) (db : DB)
    (cid : Nat) (hne : c.id ≠ cid) :
    (sendDepositReminder oc p c db).1.remindersSent.countP
        (fun rs => rs.clientId == cid && rs.type == "deposit-reminder")
      = db.remindersSent.countP
        (fun rs => rs.clientId == cid && rs.type == "deposit-reminder") := by
  rcases oc with ⟨co, oo⟩
  cases hg : db.gmailToken <;> cases co <;> cases oo <;>
    simp [sendDepositReminder, hg, List.countP_append, hne]

theorem sdr_email_other (oc : SendOutcome) (p : Proposal) (c : Client) (db : DB)
    (e eo : String) (hce : c.email = some eo) (hne : eo ≠ e) (hke : kennaEmail ≠ e) :
    (sendDepositReminder oc p c db).2.1.countP (fun m => m.toAddr == e) = 0 := by
  rcases oc with ⟨co, oo⟩
  cases hg : db.gmailToken <;> cases co <;> cases oo <;>
    simp [sendDepositReminder, hg, hce, hne, hke]

theorem sdr_target (oc : SendOutcome) (p : Proposal) (c : Client) (db : DB)
    (e : String) (hG : db.gmailToken = true) (hce : c.email = some e)
    (hke : kennaEmail ≠ e) :
    (oc.clientOk = true → oc.ownerOk = true →
      (sendDepositReminder oc p c db).1.remindersSent
          = db.remindersSent ++ [⟨c.id, "deposit-reminder"⟩] ∧
      (sendDepositReminder oc p c db).2.1.countP (fun m => m.toAddr == e) = 1) ∧
    ((oc.clientOk = false ∨ oc.ownerOk = false) →
      (sendDepositReminder oc p c db).1.remindersSent = db.remindersSent) := by
  rcases oc with ⟨co, oo⟩
  cases co <;> cases oo <;>
    simp [sendDepositReminder, hG, hce, hke]

theorem drcStep_some {now : Int} {db : DB} {p : Proposal} {pr : Proposal × Client}
    (h : drcStep now db p = some pr) :
    pr.1 = p ∧ pr.2 ∈ db.clients ∧ pr.2.id = p.clientId ∧ pr.2.email.isSome = true ∧
      (p.status == "signed" && decide (p.signedAt < now - 24)) = true := by
  unfold drcStep at h
  split at h
  · rename_i hq
    split at h
    · simp at h
    · rename_i c hfind
      split at h
      · rename_i hcond
        injection h with h1
        subst h1
        refine ⟨rfl, List.mem_of_find?_eq_some hfind, ?_, ?_, hq⟩
        · simpa using List.find?_some hfind
        · exact (Bool.and_eq_true_iff.mp (Bool.and_eq_true_iff.mp hcond).1).1
      · simp at h
  · simp at h

theorem drc_filter_by_cid (now : Int) (db : DB) (cid : Nat) :
    ∀ l : List Proposal,
      (l.filterMap (drcStep now db)).filter (fun pr => pr.2.id == cid)
        = (l.filter (fun q => q.clientId == cid && q.status == "signed" &&
            decide (q.signedAt < now - 24))).filterMap (drcStep now db) := by
  intro l
  induction l with
  | nil => rfl
  | cons p ps ih =>
    cases hstep : drcStep now db p with
    | none =>
      rw [filterMap_cons_eq_none _ _ _ hstep]
      by_cases hp : (p.clientId == cid && p.status == "signed" &&
          decide (p.signedAt < now - 24)) = true
      · rw [filter_cons_true (fun q => q.clientId == cid && q.status == "signed" &&
            decide (q.signedAt < now - 24)) p ps hp,
          filterMap_cons_eq_none _ _ _ hstep]
        exact ih
      · rw [filter_cons_false (fun q => q.clientId == cid && q.status == "signed" &&
            decide (q.signedAt < now - 24)) p ps (Bool.eq_false_iff.mpr hp)]
        exact ih
    | some pr =>
      obtain ⟨hpr1, hmemc, hid, hsome, hq⟩ := drcStep_some hstep
      rw [filterMap_cons_eq_some _ _ _ _ hstep]
      by_cases hpc : (p.clientId == cid) = true
      · have hb := Bool.and_eq_true_iff.mp hq
        have hP : (p.clientId == cid && p.status == "signed" &&
            decide (p.signedAt < now - 24)) = true := by
          simp [hpc, hb.1, hb.2]
        have hqpr : (pr.2.id == cid) = true := by
          rw [hid]
          exact hpc
        rw [filter_cons_true (fun x => x.2.id == cid) pr (ps.filterMap (drcStep now db)) hqpr,
          filter_cons_true (fun q => q.clientId == cid && q.status == "signed" &&
            decide (q.signedAt < now - 24)) p ps hP,
          filterMap_cons_eq_some _ _ _ _ hstep, ih]
      · have hpc' : (p.clientId == cid) = false := Bool.eq_false_iff.mpr hpc
        have hP' : (p.clientId == cid && p.status == "signed" &&
            decide (p.signedAt < now - 24)) = false := by
          simp [hpc']
        have hqpr' : (pr.2.id == cid) = false := by
          rw [hid]
          exact hpc'
        rw [filter_cons_false (fun x => x.2.id == cid) pr (ps.filterMap (drcStep now db)) hqpr',
          filter_cons_false (fun q => q.clientId == cid && q.status == "signed" &&
            decide (q.signedAt < now - 24)) p ps hP']
        exact ih

theorem drc_fold_others (oc : Nat → SendOutcome) (cid : Nat) (e : String)
    (hke : kennaEmail ≠ e) :
    ∀ (l : List (Proposal × Client)) (acc : DB × List Email),
      (∀ pr ∈ l, pr.2.id ≠ cid ∧ ∃ eo, pr.2.email = some eo ∧ eo ≠ e) →
      ((l.foldl (fun acc pr =>
          let r := sendDepositReminder (oc pr.2.id) pr.1 pr.2 acc.1
          (r.1, acc.2 ++ r.2.1)) acc).1.remindersSent.countP
            (fun rs => rs.clientId == cid && rs.type == "deposit-reminder")
        = acc.1.remindersSent.countP
            (fun rs => rs.clientId == cid && rs.type == "deposit-reminder")) ∧
      ((l.foldl (fun acc pr =>
          let r := sendDepositReminder (oc pr.2.id) pr.1 pr.2 acc.1
          (r.1, acc.2 ++ r.2.1)) acc).2.countP (fun m => m.toAddr == e)
        = acc.2.countP (fun m => m.toAddr == e)) ∧
      ((l.foldl (fun acc pr =>
          let r := sendDepositReminder (oc pr.2.id) pr.1 pr.2 acc.1
          (r.1, acc.2 ++ r.2.1)) acc).1.revenue = acc.1.revenue) ∧
      ((l.foldl (fun acc pr =>
          let r := sendDepositReminder (oc pr.2.id) pr.1 pr.2 acc.1
          (r.1, acc.2 ++ r.2.1)) acc).1.proposals = acc.1.proposals) ∧
      ((l.foldl (fun acc pr =>
          let r := sendDepositReminder (oc pr.2.id) pr.1 pr.2 acc.1
          (r.1, acc.2 ++ r.2.1)) acc).1.clients = acc.1.clients) ∧
      ((l.foldl (fun acc pr =>
          let r := sendDepositReminder (oc pr.2.id) pr.1 pr.2 acc.1
          (r.1, acc.2 ++ r.2.1)) acc).1.gmailToken = acc.1.gmailToken) := by
  intro l
  induction l with
  | nil => intro acc _; exact ⟨rfl, rfl, rfl, rfl, rfl, rfl⟩
  | cons x xs ih =>
    intro acc hx
    obtain ⟨hne, eo, heo, heoe⟩ := hx x (List.mem_cons_self x xs)
    have hframes := sdr_frames (oc x.2.id) x.1 x.2 acc.1
    have hled := sdr_ledger_other (oc x.2.id) x.1 x.2 acc.1 cid hne
    have hmail := sdr_email_other (oc x.2.id) x.1 x.2 acc.1 e eo heo heoe hke
    have ihx := ih (let r := sendDepositReminder (oc x.2.id) x.1 x.2 acc.1
        (r.1, acc.2 ++ r.2.1))
      (fun y hy => hx y (List.mem_cons_of_mem x hy))
    rw [List.foldl_cons]
    have hm : (acc.2 ++ (sendDepositReminder (oc x.2.id) x.1 x.2 acc.1).2.1).countP
        (fun m => m.toAddr == e) = acc.2.countP (fun m => m.toAddr == e) := by
      rw [List.countP_append, hmail]
      rfl
    exact ⟨ihx.1.trans hled, ihx.2.1.trans hm, ihx.2.2.1.trans hframes.1,
      ihx.2.2.2.1.trans hframes.2.1, ihx.2.2.2.2.1.trans hframes.2.2.1,
      ihx.2.2.2.2.2.trans hframes.2.2.2⟩

/-- C6: for a client with exactly one signed proposal older than the
24-hour grace period, an email on file, no `deposit` revenue row and no
`deposit-reminder` ledger row, one run of the deposit-reminder sweep
sends exactly one reminder email to that address and inserts exactly one
ledger row for that client and kind when both the client email and the
owner notification succeed; on a failed send no ledger row is written,
and the sweep touches neither revenue nor proposals nor clients, so the
client stays eligible for the next tick. -/
theorem C6_deposit_reminder_exactly_once (now : Int) (oc : Nat → SendOutcome)
    (db : DB) (cid : Nat) (p0 : Proposal) (c : Client) (e : String)
    (hG : db.gmailToken = true)
    (hone : db.proposals.filter
        (fun q => q.clientId == cid && q.status == "signed" &&
          decide (q.signedAt < now - 24)) = [p0])
    (hfind : db.clients.find? (fun x => x.id == p0.clientId) = some c)
    (hemail : c.email = some e)
    (hnorev : db.revenue.any
        (fun r => r.clientId == cid && r.type == "deposit") = false)
    (hnoled : db.remindersSent.any
        (fun rs => rs.clientId == cid && rs.type == "deposit-reminder") = false)
    (hke : kennaEmail ≠ e)
    (hother : ∀ x ∈ db.clients, x.id ≠ cid → x.email ≠ some e) :
    ((oc cid).clientOk = true → (oc cid).ownerOk = true →
      (checkDepositReminders now oc db).1.remindersSent.countP
          (fun rs => rs.clientId == cid && rs.type == "deposit-reminder") = 1 ∧
      (checkDepositReminders now oc db).2.countP (fun m => m.toAddr == e) = 1) ∧
    (((oc cid).clientOk = false ∨ (oc cid).ownerOk = false) →
      (checkDepositReminders now oc db).1.remindersSent.countP
          (fun rs => rs.clientId == cid && rs.type == "deposit-reminder") = 0) ∧
    (checkDepositReminders now oc db).1.revenue = db.revenue ∧
    (checkDepositReminders now oc db).1.proposals = db.proposals ∧
    (checkDepositReminders now oc db).1.clients = db.clients := by
  have hp0mem : p0 ∈ db.proposals.filter
      (fun q => q.clientId == cid && q.status == "signed" &&
        decide (q.signedAt < now - 24)) := by
    rw [hone]
    exact List.mem_singleton_self p0
  have hp0q := List.of_mem_filter hp0mem
  have hc13 := Bool.and_eq_true_iff.mp hp0q
  have hc12 := Bool.and_eq_true_iff.mp hc13.1
  have hp0cid : p0.clientId = cid := by simpa using hc12.1
  have hccid : c.id = cid := by
    have := List.find?_some hfind
    simp at this
    rw [this, hp0cid]
  have hq12 : (p0.status == "signed" && decide (p0.signedAt < now - 24)) = true := by
    rw [hc12.2, hc13.2]
    rfl
  have hstep : drcStep now db p0 = some (p0, c) := by
    unfold drcStep
    rw [if_pos hq12]
    simp only [hfind]
    have hcnd : (c.email.isSome
        && !(db.revenue.any (fun r => r.clientId == p0.clientId && r.type == "deposit"))
        && !(db.remindersSent.any (fun rs =>
              rs.clientId == p0.clientId && rs.type == "deposit-reminder"))) = true := by
      rw [hp0cid, hemail, hnorev, hnoled]
      rfl
    exact if_pos hcnd
  have hcand : (depositReminderCandidates now db).filter (fun pr => pr.2.id == cid)
      = [(p0, c)] := by
    unfold depositReminderCandidates
    rw [drc_filter_by_cid now db cid db.proposals, hone,
      filterMap_cons_eq_some _ _ _ _ hstep]
    rfl
  obtain ⟨l1, l2, hsplit, hl1, hl2⟩ :=
    filter_singleton_split (fun pr => pr.2.id == cid) (depositReminderCandidates now db)
      (p0, c) hcand
  have hoth : ∀ pr ∈ depositReminderCandidates now db, (pr.2.id == cid) = false →
      pr.2.id ≠ cid ∧ ∃ eo, pr.2.email = some eo ∧ eo ≠ e := by
    intro pr hmem hfalse
    have hne : pr.2.id ≠ cid := by simpa using hfalse
    obtain ⟨q, hq, hqeq⟩ := List.mem_filterMap.mp hmem
    obtain ⟨_, hmemc, _, hsome, _⟩ := drcStep_some hqeq
    obtain ⟨eo, heo⟩ := Option.isSome_iff_exists.mp hsome
    refine ⟨hne, eo, heo, ?_⟩
    intro he
    subst he
    exact hother pr.2 hmemc hne heo
  have hl1' : ∀ pr ∈ l1, pr.2.id ≠ cid ∧ ∃ eo, pr.2.email = some eo ∧ eo ≠ e := by
    intro pr hpr
    exact hoth pr (by rw [hsplit]; exact List.mem_append.mpr (Or.inl hpr)) (hl1 pr hpr)
  have hl2' : ∀ pr ∈ l2, pr.2.id ≠ cid ∧ ∃ eo, pr.2.email = some eo ∧ eo ≠ e := by
    intro pr hpr
    exact hoth pr
      (by rw [hsplit]; exact List.mem_append.mpr (Or.inr (List.mem_cons_of_mem _ hpr)))
      (hl2 pr hpr)
  have hzero : db.remindersSent.countP
      (fun rs => rs.clientId == cid && rs.type == "deposit-reminder") = 0 := by
    rw [List.countP_eq_zero]
    exact List.any_eq_false.mp hnoled
  have hrun : checkDepositReminders now oc db
      = ((l1 ++ (p0, c) :: l2).foldl (fun acc pr =>
          let r := sendDepositReminder (oc pr.2.id) pr.1 pr.2 acc.1
          (r.1, acc.2 ++ r.2.1)) (db, [])) := by
    unfold checkDepositReminders
    rw [hsplit]
  have hfold1 := drc_fold_others oc cid e hke l1 (db, []) hl1'
  set acc1 := (l1.foldl (fun acc pr =>
      let r := sendDepositReminder (oc pr.2.id) pr.1 pr.2 acc.1
      (r.1, acc.2 ++ r.2.1)) ((db, []) : DB × List Email)) with hacc1
  have h0 : acc1.1.remindersSent.countP
      (fun rs => rs.clientId == cid && rs.type == "deposit-reminder") = 0 :=
    hfold1.1.trans hzero
  have hm0 : acc1.2.countP (fun m => m.toAddr == e) = 0 :=
    hfold1.2.1.trans rfl
  have hG1 : acc1.1.gmailToken = true := by
    rw [hfold1.2.2.2.2.2]
    exact hG
  have htarget := sdr_target (oc c.id) p0 c acc1.1 e hG1 hemail hke
  have hfold2 := drc_fold_others oc cid e hke l2
    (let r := sendDepositReminder (oc (p0, c).2.id) (p0, c).1 (p0, c).2 acc1.1
     (r.1, acc1.2 ++ r.2.1)) hl2'
  refine ⟨?_, ?_, ?_, ?_, ?_⟩
  · intro hco hoo
    have hco' : (oc c.id).clientOk = true := by rw [hccid]; exact hco
    have hoo' : (oc c.id).ownerOk = true := by rw [hccid]; exact hoo
    have hstep2 := htarget.1 hco' hoo'
    refine ⟨?_, ?_⟩
    · rw [hrun, List.foldl_append, List.foldl_cons, ← hacc1, hfold2.1]
      show (sendDepositReminder (oc c.id) p0 c acc1.1).1.remindersSent.countP
          (fun rs => rs.clientId == cid && rs.type == "deposit-reminder") = 1
      rw [hstep2.1, List.countP_append, h0]
      simp [hccid]
    · rw [hrun, List.foldl_append, List.foldl_cons, ← hacc1, hfold2.2.1]
      show (acc1.2 ++ (sendDepositReminder (oc c.id) p0 c acc1.1).2.1).countP
          (fun m => m.toAddr == e) = 1
      rw [List.countP_append, hm0, hstep2.2]
  · intro hfail
    have hfail' : (oc c.id).clientOk = false ∨ (oc c.id).ownerOk = false := by
      rw [hccid]
      exact hfail
    have hstep2 := htarget.2 hfail'
    rw [hrun, List.foldl_append, List.foldl_cons, ← hacc1, hfold2.1]
    show (sendDepositReminder (oc c.id) p0 c acc1.1).1.remindersSent.countP
        (fun rs => rs.clientId == cid && rs.type == "deposit-reminder") = 0
    rw [hstep2]
    exact h0
  · rw [hrun, List.foldl_append, List.foldl_cons, ← hacc1, hfold2.2.2.1]
    show (sendDepositReminder (oc c.id) p0 c acc1.1).1.revenue = db.revenue
    rw [(sdr_frames (oc c.id) p0 c acc1.1).1]
    exact hfold1.2.2.1
  · rw [hrun, List.foldl_append, List.foldl_cons, ← hacc1, hfold2.2.2.2.1]
    show (sendDepositReminder (oc c.id) p0 c acc1.1).1.proposals = db.proposals
    rw [(sdr_frames (oc c.id) p0 c acc1.1).2.1]
    exact hfold1.2.2.2.1
  · rw [hrun, List.foldl_append, List.foldl_cons, ← hacc1, hfold2.2.2.2.2.1]
    show (sendDepositReminder (oc c.id) p0 c acc1.1).1.clients = db.clients
    rw [(sdr_frames (oc c.id) p0 c acc1.1).2.2.1]
    exact hfold1.2.2.2.2.1

/-- Witness for C6: Ada signed a proposal 25 hours ago and both sends
succeed, so the sweep writes exactly one ledger row and one email. -/
theorem C6_deposit_reminder_exactly_once_witness :
    (adaProposalDB.proposals.filter
        (fun q => q.clientId == 6 && q.status == "signed" &&
          decide (q.signedAt < 25 - 24)) = [(⟨6, "signed", 0⟩ : Proposal)]) ∧
    (((fun _ : Nat => (⟨true, true⟩ : SendOutcome)) 6).clientOk = true →
      ((fun _ : Nat => (⟨true, true⟩ : SendOutcome)) 6).ownerOk = true →
      (checkDepositReminders 25 (fun _ => ⟨true, true⟩) adaProposalDB).1.remindersSent.countP
          (fun rs => rs.clientId == 6 && rs.type == "deposit-reminder") = 1 ∧
      (checkDepositReminders 25 (fun _ => ⟨true, true⟩) adaProposalDB).2.countP
          (fun m => m.toAddr == "ada@example.com") = 1) :=
  ⟨by decide,
    (C6_deposit_reminder_exactly_once 25 (fun _ => ⟨true, true⟩) adaProposalDB 6
      ⟨6, "signed", 0⟩ adaClient "ada@example.com" rfl (by decide) (by decide) rfl
      (by decide) (by decide) (by decide) (by decide)).1⟩

end Sugar
